import Mathlib

/-!
# Upload pipeline of `main.go`

A shallow embedding of the document-upload handler: the extension allow-list
(`allowedFile`), the token issuer (`generateToken`, HMAC-SHA256 over
`id:path:url`), the scanner and converter adapters, the uploader, and the
orchestrating `uploadFileHandler`.

Conventions of the embedding.
* A Go `string` is a `List Char` (the text is taken to be valid UTF-8); where
  Go converts a string to `[]byte` the UTF-8 encoding is taken explicitly.
* The path functions of `path/filepath` are those of a Unix build: the one
  path separator is `/` and there is no volume name.
* Everything the handler asks of its environment (multipart part, file
  system, clock, the two external commands, the object store) is answered by
  a `World` value; the handler is a function of the request and the world
  that returns its result together with the trace of effects it performed.
-/

namespace Upload

/-- A Go string. -/
abbrev Str := List Char

/-! ## `path/filepath` and `strings` -/

/-- The predicate `os.IsPathSeparator` on Unix. -/
def isPathSeparator (c : Char) : Bool := c == '/'

/-- The loop of `filepath.Ext`, run over the reversed path: `acc` holds the
characters to the right of the scanning index. The scan stops with the empty
extension at a path separator and returns `path[i:]` at the first dot. -/
def extScan (acc : Str) : Str → Str
  | [] => []
  | c :: rest =>
    if isPathSeparator c then []
    else if c = '.' then c :: acc
    else extScan (c :: acc) rest

/-- The function `filepath.Ext`:
`for i := len(path)-1; i >= 0 && !IsPathSeparator(path[i]); i--` returning
`path[i:]` at the first `.` met, and `""` when the loop ends. -/
def Ext (path : Str) : Str := extScan [] path.reverse

/-- The function `unicode.ToLower` on one rune: the ASCII range is handled
inline (`'A'..'Z'` shifted by `'a' - 'A'`), every other rune is looked up in
the Unicode case tables, which are the parameter `tbl`. -/
def toLowerRune (tbl : Char → Char) (c : Char) : Char :=
  if c.toNat < 128 then
    (if 65 ≤ c.toNat ∧ c.toNat ≤ 90 then Char.ofNat (c.toNat + 32) else c)
  else tbl c

/-- The function `strings.ToLower`. -/
def ToLower (tbl : Char → Char) (s : Str) : Str := s.map (toLowerRune tbl)

/-- The map `AllowedExtensions`, as its list of entries. -/
def AllowedExtensions : List (Str × Bool) :=
  [ (".pdf".toList, true),
    (".doc".toList, true),
    (".docx".toList, true),
    (".odt".toList, true),
    (".rtf".toList, true),
    (".wps".toList, true),
    (".wpd".toList, true) ]

/-- Indexing a Go `map[string]bool`: the stored value, or the zero value
`false` for a key that is absent. -/
def mapIndex (m : List (Str × Bool)) (k : Str) : Bool :=
  match m.lookup k with
  | some b => b
  | none => false

/-- The function `allowedFile`. -/
def allowedFile (tbl : Char → Char) (filename : Str) : Bool :=
  let ext := ToLower tbl (Ext filename)
  mapIndex AllowedExtensions ext

/-! ### The extension as the specification words it -/

/-- The last element of a path: what follows its last `/` (the whole path
when it has none). -/
def lastElement : Str → Str
  | [] => []
  | c :: t => if '/' ∈ t then lastElement t else if c = '/' then t else c :: t

/-- The suffix of `s` that starts at its last `.`, empty when `s` has none. -/
def suffixFromLastDot : Str → Str
  | [] => []
  | c :: t => if '.' ∈ t then suffixFromLastDot t else if c = '.' then c :: t else []

/-- The extension in the words of the specification: the suffix starting at
the last `.` of the last path element. -/
def specExt (filename : Str) : Str := suffixFromLastDot (lastElement filename)

/-- The allow-list of the specification. -/
def specAllowList : List Str :=
  [".pdf".toList, ".doc".toList, ".docx".toList, ".odt".toList,
   ".rtf".toList, ".wps".toList, ".wpd".toList]

/-- The function `strings.ReplaceAll(s, old, new)` for `old` and `new` of one
character each, as the handler calls it (`" "` by `"_"`). -/
def ReplaceAll (s : Str) (old new : Char) : Str :=
  s.map (fun c => if c = old then new else c)

/-- The function `strings.HasSuffix`. -/
def HasSuffix (s suffix : Str) : Bool := suffix.reverse.isPrefixOf s.reverse

/-- The function `strings.TrimSuffix`: `s` without the trailing `suffix` when
it has it, `s` itself otherwise. -/
def TrimSuffix (s suffix : Str) : Str :=
  if HasSuffix s suffix then s.take (s.length - suffix.length) else s

/-- The function `strings.Contains`: `substr` occurs in `s`. -/
def Contains : Str → Str → Bool
  | [], substr => substr.isPrefixOf []
  | c :: t, substr => substr.isPrefixOf (c :: t) || Contains t substr

/-- The elements of a path: the pieces between its separators. -/
def splitSep : Str → List Str
  | [] => [[]]
  | c :: t =>
    if isPathSeparator c then [] :: splitSep t
    else match splitSep t with
      | [] => [[c]]
      | e :: es => (c :: e) :: es

/-- One turn of the loop of `filepath.Clean`, on one path element; `out` is
the output buffer as the list of the elements written so far, the last one
first. An empty element and a `.` element are skipped; a `..` element removes
the last element written when there is one to backtrack over
(`out.w > dotdot`), is written when the path is not rooted, and is dropped
otherwise; any other element is written. -/
def cleanStep (rooted : Bool) (out : List Str) (e : Str) : List Str :=
  if e = [] then out
  else if e = ['.'] then out
  else if e = ['.', '.'] then
    match out with
    | top :: below =>
      if top ≠ ['.', '.'] then below
      else if !rooted then e :: out
      else out
    | [] => if !rooted then e :: out else out
  else e :: out

/-- The function `filepath.Clean`. -/
def Clean (path : Str) : Str :=
  if path = [] then ['.']
  else
    let rooted := match path with
      | c :: _ => isPathSeparator c
      | [] => false
    let out := (splitSep path).foldl (cleanStep rooted) []
    let body := ['/'].intercalate out.reverse
    let res := if rooted then '/' :: body else body
    if res = [] then ['.'] else res

/-- The function `filepath.Join`: the elements from the first non-empty one
on, joined with the separator, and cleaned; `""` when all are empty. -/
def Join (elem : List Str) : Str :=
  match elem.dropWhile (fun e => e = []) with
  | [] => []
  | es => Clean (['/'].intercalate es)

/-- The function `filepath.Base`: the last element of the path, trailing
separators removed first; `.` for the empty path and `/` for a path of
separators only. -/
def Base (path : Str) : Str :=
  if path = [] then ['.']
  else
    let stripped := (path.reverse.dropWhile isPathSeparator).reverse
    let last := (stripped.reverse.takeWhile (fun c => !isPathSeparator c)).reverse
    if last = [] then ['/'] else last

/-- The function `filepath.Dir`: the path up to and including its last
separator, cleaned. -/
def Dir (path : Str) : Str :=
  Clean (path.reverse.dropWhile (fun c => !isPathSeparator c)).reverse

/-! ## `fmt.Sprintf` with `%s` verbs -/

/-- The function `fmt.Sprintf` for a format whose only verbs are `%s` and
whose operands are strings, which is how the program uses it: a verb is
replaced by the next operand, a verb without operand by `%!s(MISSING)`, and
operands left over are reported in a trailing `%!(EXTRA ...)`. -/
def Sprintf : Str → List Str → Str
  | [], [] => []
  | [], a :: args =>
    "%!(EXTRA ".toList ++
      ", ".toList.intercalate ((a :: args).map (fun x => "string=".toList ++ x)) ++ ")".toList
  | '%' :: 's' :: rest, a :: args => a ++ Sprintf rest args
  | '%' :: 's' :: rest, [] => "%!s(MISSING)".toList ++ Sprintf rest []
  | c :: rest, args => c :: Sprintf rest args

/-! ## `crypto/sha256`, `crypto/hmac`, `encoding/hex` -/

/-- The conversion `[]byte(string(r))` of one rune: its UTF-8 encoding. -/
def utf8EncodeChar (c : Char) : List Nat :=
  let v := c.toNat
  if v ≤ 0x7f then [v]
  else if v ≤ 0x7ff then [0xc0 + v / 64, 0x80 + v % 64]
  else if v ≤ 0xffff then [0xe0 + v / 4096, 0x80 + (v / 64) % 64, 0x80 + v % 64]
  else [0xf0 + v / 262144, 0x80 + (v / 4096) % 64, 0x80 + (v / 64) % 64, 0x80 + v % 64]

/-- The conversion `[]byte(s)`. -/
def toBytes (s : Str) : List Nat := (s.map utf8EncodeChar).flatten

/-- The round constants of SHA-256. -/
def sha256K : List Nat :=
  [0x428a2f98, 0x71374491, 0xb5c0fbcf, 0xe9b5dba5, 0x3956c25b, 0x59f111f1, 0x923f82a4, 0xab1c5ed5,
   0xd807aa98, 0x12835b01, 0x243185be, 0x550c7dc3, 0x72be5d74, 0x80deb1fe, 0x9bdc06a7, 0xc19bf174,
   0xe49b69c1, 0xefbe4786, 0x0fc19dc6, 0x240ca1cc, 0x2de92c6f, 0x4a7484aa, 0x5cb0a9dc, 0x76f988da,
   0x983e5152, 0xa831c66d, 0xb00327c8, 0xbf597fc7, 0xc6e00bf3, 0xd5a79147, 0x06ca6351, 0x14292967,
   0x27b70a85, 0x2e1b2138, 0x4d2c6dfc, 0x53380d13, 0x650a7354, 0x766a0abb, 0x81c2c92e, 0x92722c85,
   0xa2bfe8a1, 0xa81a664b, 0xc24b8b70, 0xc76c51a3, 0xd192e819, 0xd6990624, 0xf40e3585, 0x106aa070,
   0x19a4c116, 0x1e376c08, 0x2748774c, 0x34b0bcb5, 0x391c0cb3, 0x4ed8aa4a, 0x5b9cca4f, 0x682e6ff3,
   0x748f82ee, 0x78a5636f, 0x84c87814, 0x8cc70208, 0x90befffa, 0xa4506ceb, 0xbef9a3f7, 0xc67178f2]

/-- The eight working words of SHA-256, each below `2^32`. -/
structure Sha256State where
  a : Nat
  b : Nat
  c : Nat
  d : Nat
  e : Nat
  f : Nat
  g : Nat
  h : Nat
deriving DecidableEq, Repr

/-- The initial hash value of SHA-256. -/
def sha256Init : Sha256State :=
  { a := 0x6a09e667, b := 0xbb67ae85, c := 0x3c6ef372, d := 0xa54ff53a,
    e := 0x510e527f, f := 0x9b05688c, g := 0x1f83d9ab, h := 0x5be0cd19 }

/-- Rotation to the right of a 32-bit word. -/
def rotr (x n : Nat) : Nat := ((x >>> n) ||| (x <<< (32 - n))) % 2 ^ 32

def bigSigma0 (x : Nat) : Nat := rotr x 2 ^^^ rotr x 13 ^^^ rotr x 22
def bigSigma1 (x : Nat) : Nat := rotr x 6 ^^^ rotr x 11 ^^^ rotr x 25
def smallSigma0 (x : Nat) : Nat := rotr x 7 ^^^ rotr x 18 ^^^ (x >>> 3)
def smallSigma1 (x : Nat) : Nat := rotr x 17 ^^^ rotr x 19 ^^^ (x >>> 10)
def ch (x y z : Nat) : Nat := (x &&& y) ^^^ ((x ^^^ 0xffffffff) &&& z)
def maj (x y z : Nat) : Nat := (x &&& y) ^^^ (x &&& z) ^^^ (y &&& z)

/-- Four bytes, big-endian, as one 32-bit word. -/
def beWord (bs : List Nat) : Nat :=
  bs.getD 0 0 * 2 ^ 24 + bs.getD 1 0 * 2 ^ 16 + bs.getD 2 0 * 2 ^ 8 + bs.getD 3 0

/-- A 32-bit word as four bytes, big-endian. -/
def wordBytes (w : Nat) : List Nat :=
  [w / 2 ^ 24 % 256, w / 2 ^ 16 % 256, w / 2 ^ 8 % 256, w % 256]

/-- The sixteen words of a 64-byte block. -/
def blockWords (block : List Nat) : List Nat :=
  (List.range 16).map (fun i => beWord ((block.drop (4 * i)).take 4))

/-- The message schedule: the sixteen words of the block extended to 64. -/
def schedule (block : List Nat) : List Nat :=
  (List.range 48).foldl
    (fun w i =>
      let t := i + 16
      w ++ [(smallSigma1 (w.getD (t - 2) 0) + w.getD (t - 7) 0 +
             smallSigma0 (w.getD (t - 15) 0) + w.getD (t - 16) 0) % 2 ^ 32])
    (blockWords block)

/-- One round of the compression function. -/
def sha256Round (s : Sha256State) (k w : Nat) : Sha256State :=
  let t1 := (s.h + bigSigma1 s.e + ch s.e s.f s.g + k + w) % 2 ^ 32
  let t2 := (bigSigma0 s.a + maj s.a s.b s.c) % 2 ^ 32
  { a := (t1 + t2) % 2 ^ 32, b := s.a, c := s.b, d := s.c,
    e := (s.d + t1) % 2 ^ 32, f := s.e, g := s.f, h := s.g }

/-- The compression of one 64-byte block into the running hash. -/
def sha256Block (hash : Sha256State) (block : List Nat) : Sha256State :=
  let s := (sha256K.zip (schedule block)).foldl (fun s kw => sha256Round s kw.1 kw.2) hash
  { a := (hash.a + s.a) % 2 ^ 32, b := (hash.b + s.b) % 2 ^ 32,
    c := (hash.c + s.c) % 2 ^ 32, d := (hash.d + s.d) % 2 ^ 32,
    e := (hash.e + s.e) % 2 ^ 32, f := (hash.f + s.f) % 2 ^ 32,
    g := (hash.g + s.g) % 2 ^ 32, h := (hash.h + s.h) % 2 ^ 32 }

/-- The padding of SHA-256: a `0x80` byte, zeros up to 56 modulo 64, and the
bit length of the message as a 64-bit big-endian number. -/
def sha256Pad (msg : List Nat) : List Nat :=
  let bits := 8 * msg.length
  msg ++ [0x80] ++ List.replicate ((119 - msg.length % 64) % 64) 0 ++
    (List.range 8).map (fun i => bits / 2 ^ (8 * (7 - i)) % 256)

/-- The first `n` blocks of 64 bytes of a message. -/
def blocks64 : Nat → List Nat → List (List Nat)
  | 0, _ => []
  | n + 1, l => l.take 64 :: blocks64 n (l.drop 64)

/-- The digest `sha256.Sum256`, 32 bytes. -/
def sha256 (msg : List Nat) : List Nat :=
  let padded := sha256Pad msg
  let s := (blocks64 (padded.length / 64) padded).foldl sha256Block sha256Init
  wordBytes s.a ++ wordBytes s.b ++ wordBytes s.c ++ wordBytes s.d ++
    wordBytes s.e ++ wordBytes s.f ++ wordBytes s.g ++ wordBytes s.h

/-- The key of `hmac.New(sha256.New, key)` brought to the block size of 64
bytes: hashed first when longer, then padded with zeros. -/
def hmacKey (key : List Nat) : List Nat :=
  let k := if key.length > 64 then sha256 key else key
  k ++ List.replicate (64 - k.length) 0

/-- The code HMAC-SHA256: `h := hmac.New(sha256.New, key); h.Write(msg);
h.Sum(nil)`. -/
def hmacSha256 (key msg : List Nat) : List Nat :=
  let k := hmacKey key
  let ipad := k.map (fun b => b ^^^ 0x36)
  let opad := k.map (fun b => b ^^^ 0x5c)
  sha256 (opad ++ sha256 (ipad ++ msg))

/-- The table `hextable` of `encoding/hex`. -/
def hextable : List Char := "0123456789abcdef".toList

/-- The function `hex.EncodeToString`: two characters of `hextable` for each
byte, `hextable[v>>4]` and then `hextable[v&0x0f]`. -/
def hexEncodeToString (src : List Nat) : Str :=
  (src.map (fun v => [hextable.getD (v >>> 4) '0', hextable.getD (v &&& 0x0f) '0'])).flatten

/-- The string `data` of `generateToken`, the message that is authenticated. -/
def tokenData (userUUID filePath fileURL : Str) : Str :=
  Sprintf "%s:%s:%s".toList [userUUID, filePath, fileURL]

/-- The function `generateToken`; the secret `DoSecretKeyDoFunctions`, a
package variable set once at start-up, is the first argument. -/
def generateToken (DoSecretKeyDoFunctions : Str) (userUUID filePath fileURL : Str) : Str :=
  let data := tokenData userUUID filePath fileURL
  hexEncodeToString (hmacSha256 (toBytes DoSecretKeyDoFunctions) (toBytes data))

/-! ## The environment of the handler -/

/-- The package variables that `init` reads from the environment once and
that the pipeline only reads afterwards. -/
structure Config where
  DoSpacesEndpoint : Str
  DoSpacesBucketName : Str
  DoSecretKeyDoFunctions : Str

/-- What the handler reads from the echo context: the three form values and
the outcome of `c.FormFile("cvFile")`, `none` for an error and the
`Filename` of the part otherwise. -/
structure Request where
  userUUID : Str
  firstName : Str
  lastName : Str
  cvFile : Option Str

/-- The run of the scan command: whether `cmd.Run()` returned a nil error
(the command could be started and exited with status 0), and what it wrote
to its standard output. -/
structure CmdOutcome where
  runOk : Bool
  stdout : Str

/-- The answers of the collaborators during one request. -/
structure World where
  /-- The call `file.Open()` succeeds. -/
  fileOpen : Bool
  /-- The directory returned by `os.MkdirTemp("", "upload")`, `none` for an error. -/
  mkdirTemp : Option Str
  /-- The value of `time.Now().Format("2006-01-02-15-04-05")`. -/
  timestamp : Str
  /-- The call `os.Create(path)` succeeds. -/
  osCreate : Str → Bool
  /-- The call `io.Copy(dst, src)` succeeds. -/
  ioCopy : Bool
  /-- The size reported by `dst.Stat()`, an `int64`; `none` for an error. -/
  statSize : Option Int
  /-- The run of `clamdscan path`. -/
  clamdscan : Str → CmdOutcome
  /-- The run of `libreoffice --headless --convert-to pdf path --outdir dir`
  returns a nil error. -/
  libreoffice : Str → Str → Bool
  /-- The call `os.Open(path)` of the uploader succeeds. -/
  osOpen : Str → Bool
  /-- The call `s3Client.PutObject` with this bucket and key succeeds. -/
  putObject : Str → Str → Bool

/-- The JSON body of a response: `{error}` or `{file_url, file_path, token}`. -/
inductive Body where
  | error (msg : String)
  | uploaded (file_url file_path token : Str)
deriving DecidableEq

/-- What the handler returns to the HTTP layer: the result of `c.JSON` after
a response with this status and body was written, or an error value passed
up as it is (`return err`), tagged with the call that produced it. -/
inductive Result where
  | json (status : Nat) (body : Body)
  | err (call : String)
deriving DecidableEq

/-- The effects of the handler, in the order of the trace: calls of the
stages with what they returned, and the operations on the file system. -/
inductive Effect where
  | mkdirTemp (dir : Str)
  | create (path : Str)
  | scanFileForViruses (path : Str) (clean : Bool)
  | convertToPDF (path : Str) (ok : Bool)
  | remove (path : Str)
  | uploadToS3 (path : Str)
  | putObject (bucket key : Str) (ok : Bool)
  | generateToken (userUUID filePath fileURL : Str)
  | json (status : Nat) (body : Body)
  | removeAll (dir : Str)
deriving DecidableEq

/-! ## The stages -/

/-- The constant `MaxFileSize = 1.5 * 1024 * 1024`, at the `int64` value the
comparison with `fileInfo.Size()` gives it. -/
def MaxFileSize : Int := 1572864

/-- The function `scanFileForViruses`: `false` when `cmd.Run()` returns an
error, otherwise whether the captured output contains `OK`. -/
def scanFileForViruses (w : World) (filePath : Str) : Bool :=
  let cmd := w.clamdscan filePath
  if !cmd.runOk then false
  else Contains cmd.stdout "OK".toList

/-- The path `outputPath` of `convertToPDF`. -/
def outputPath (filePath : Str) : Str :=
  TrimSuffix filePath (Ext filePath) ++ ".pdf".toList

/-- The function `convertToPDF`: the error of the conversion command, or,
after `os.Remove(filePath)`, the output path. -/
def convertToPDF (w : World) (filePath : Str) : Option Str × List Effect :=
  if !w.libreoffice filePath (Dir filePath) then
    (none, [Effect.convertToPDF filePath false])
  else
    (some (outputPath filePath), [Effect.convertToPDF filePath true, Effect.remove filePath])

/-- The function `uploadToS3`: an error when the file cannot be opened or
`PutObject` fails, otherwise the URL `endpoint/bucket/key` with the base name
of the path as the key. -/
def uploadToS3 (cfg : Config) (w : World) (filePath : Str) : Option Str × List Effect :=
  if !w.osOpen filePath then (none, [Effect.uploadToS3 filePath])
  else
    let key := Base filePath
    if !w.putObject cfg.DoSpacesBucketName key then
      (none, [Effect.uploadToS3 filePath, Effect.putObject cfg.DoSpacesBucketName key false])
    else
      (some (Sprintf "%s/%s/%s".toList [cfg.DoSpacesEndpoint, cfg.DoSpacesBucketName, key]),
        [Effect.uploadToS3 filePath, Effect.putObject cfg.DoSpacesBucketName key true])

/-- The statement `return c.JSON(status, body)`. -/
def respond (status : Nat) (body : Body) : Result × List Effect :=
  (Result.json status body, [Effect.json status body])

/-- The scratch path of lines 162 to 166: the name
`first-last-timestamp` with the extension of the uploaded filename, spaces of
the two names replaced by `_`, joined to the scratch directory. -/
def scratchPath (w : World) (req : Request) (filename tempDir : Str) : Str :=
  let timestamp := w.timestamp
  let sanitizedFirstName := ReplaceAll req.firstName ' ' '_'
  let sanitizedLastName := ReplaceAll req.lastName ' ' '_'
  let newFilename := Sprintf "%s-%s-%s%s".toList
    [sanitizedFirstName, sanitizedLastName, timestamp, Ext filename]
  Join [tempDir, newFilename]

/-- Lines 198 to 208: the upload, the token and the success response. -/
def uploadStage (cfg : Config) (w : World) (req : Request) (filePath : Str) :
    Result × List Effect :=
  match uploadToS3 cfg w filePath with
  | (none, effs) =>
    (Result.json 500 (Body.error "Failed to upload file to S3"),
      effs ++ [Effect.json 500 (Body.error "Failed to upload file to S3")])
  | (some fileURL, effs) =>
    let token := generateToken cfg.DoSecretKeyDoFunctions req.userUUID filePath fileURL
    (Result.json 200 (Body.uploaded fileURL filePath token),
      effs ++ [Effect.generateToken req.userUUID filePath fileURL,
               Effect.json 200 (Body.uploaded fileURL filePath token)])

/-- Lines 191 to 196 and what follows: the conversion when the extension of
the path is not `.pdf`, then the upload. -/
def convertStage (cfg : Config) (w : World) (req : Request) (filePath : Str) :
    Result × List Effect :=
  if Ext filePath ≠ ".pdf".toList then
    match convertToPDF w filePath with
    | (none, effs) =>
      (Result.json 500 (Body.error "Failed to convert file to PDF"),
        effs ++ [Effect.json 500 (Body.error "Failed to convert file to PDF")])
    | (some converted, effs) =>
      ((uploadStage cfg w req converted).1, effs ++ (uploadStage cfg w req converted).2)
  else uploadStage cfg w req filePath

/-- Lines 187 to 189 and what follows: the scan, then the conversion. -/
def scanStage (cfg : Config) (w : World) (req : Request) (filePath : Str) :
    Result × List Effect :=
  if !scanFileForViruses w filePath then
    (Result.json 400 (Body.error "File might be infected"),
      [Effect.scanFileForViruses filePath false,
       Effect.json 400 (Body.error "File might be infected")])
  else
    ((convertStage cfg w req filePath).1,
      Effect.scanFileForViruses filePath true :: (convertStage cfg w req filePath).2)

/-- Lines 162 to 209, the part of the handler that runs between the creation
of the scratch directory and its deferred removal. -/
def processUpload (cfg : Config) (w : World) (req : Request) (filename tempDir : Str) :
    Result × List Effect :=
  let filePath := scratchPath w req filename tempDir
  if !w.osCreate filePath then (Result.err "os.Create", [])
  else if !w.ioCopy then (Result.err "io.Copy", [Effect.create filePath])
  else
    match w.statSize with
    | none => (Result.err "dst.Stat", [Effect.create filePath])
    | some size =>
      if size > MaxFileSize then
        (Result.json 400 (Body.error "File size exceeds limit"),
          [Effect.create filePath, Effect.json 400 (Body.error "File size exceeds limit")])
      else
        ((scanStage cfg w req filePath).1, Effect.create filePath :: (scanStage cfg w req filePath).2)

/-- The function `uploadFileHandler`: its result and the trace of its
effects. The deferred `os.RemoveAll(tempDir)` is the last effect of every
path that created the directory; the deferred `Close` calls are not traced. -/
def uploadFileHandler (tbl : Char → Char) (cfg : Config) (w : World) (req : Request) :
    Result × List Effect :=
  if req.userUUID = [] ∨ req.firstName = [] ∨ req.lastName = [] then
    respond 400 (Body.error "User UUID, First Name, and Last Name are required")
  else
    match req.cvFile with
    | none => respond 400 (Body.error "No file part")
    | some filename =>
      if filename = [] then respond 400 (Body.error "No selected file")
      else if !allowedFile tbl filename then respond 400 (Body.error "File type not allowed")
      else if !w.fileOpen then (Result.err "file.Open", [])
      else
        match w.mkdirTemp with
        | none => (Result.err "os.MkdirTemp", [])
        | some tempDir =>
          ((processUpload cfg w req filename tempDir).1,
            Effect.mkdirTemp tempDir :: (processUpload cfg w req filename tempDir).2 ++
              [Effect.removeAll tempDir])

/-! ## The file system after a trace -/

/-- The path lies inside the directory: it is `dir/...`. -/
def isInside (dir path : Str) : Bool := (dir ++ ['/']).isPrefixOf path

/-- The effect of one step of the trace on the set of paths that exist. -/
def applyEffect (fs : List Str) : Effect → List Str
  | Effect.mkdirTemp dir => dir :: fs
  | Effect.create path => path :: fs
  | Effect.convertToPDF path true => outputPath path :: fs
  | Effect.remove path => fs.filter (fun q => q ≠ path)
  | Effect.removeAll dir => fs.filter (fun q => q ≠ dir ∧ !isInside dir q)
  | _ => fs

/-- The paths that exist after a trace, from those that existed before. -/
def fsAfter (fs : List Str) (trace : List Effect) : List Str :=
  trace.foldl applyEffect fs

/-! ## Predicates on requests and traces -/

/-- The effect is a call of `convertToPDF`. -/
def Effect.isConvert : Effect → Bool
  | Effect.convertToPDF _ _ => true
  | _ => false

/-- The effect is a call of `uploadToS3` or the `PutObject` call inside it. -/
def Effect.isUpload : Effect → Bool
  | Effect.uploadToS3 _ => true
  | Effect.putObject _ _ _ => true
  | _ => false

/-- The effect is a call of `generateToken`. -/
def Effect.isToken : Effect → Bool
  | Effect.generateToken _ _ _ => true
  | _ => false

/-- The effect is a call of `scanFileForViruses`. -/
def Effect.isScan : Effect → Bool
  | Effect.scanFileForViruses _ _ => true
  | _ => false

/-- The request passes the required-field checks and the extension check,
with `filename` the name of its file part. -/
def Validated (tbl : Char → Char) (req : Request) (filename : Str) : Prop :=
  req.userUUID ≠ [] ∧ req.firstName ≠ [] ∧ req.lastName ≠ [] ∧
    req.cvFile = some filename ∧ filename ≠ [] ∧ allowedFile tbl filename = true

instance (tbl : Char → Char) (req : Request) (filename : Str) :
    Decidable (Validated tbl req filename) := by
  unfold Validated
  infer_instance

/-- The request is validated and its scratch file is written in `tempDir`
and measured at `size` bytes: the part could be opened, the scratch directory
and file created, the bytes copied and the file stat-ed. -/
def Persisted (tbl : Char → Char) (w : World) (req : Request) (filename tempDir : Str)
    (size : Int) : Prop :=
  Validated tbl req filename ∧ w.fileOpen = true ∧ w.mkdirTemp = some tempDir ∧
    w.osCreate (scratchPath w req filename tempDir) = true ∧ w.ioCopy = true ∧
    w.statSize = some size

instance (tbl : Char → Char) (w : World) (req : Request) (filename tempDir : Str)
    (size : Int) : Decidable (Persisted tbl w req filename tempDir size) := by
  unfold Persisted
  infer_instance

/-- One of the five calls whose error the handler passes up as it is fails:
opening the part, creating the scratch directory, creating the scratch file,
copying the bytes, or `Stat`. -/
def IOFailure (w : World) (req : Request) (filename : Str) : Prop :=
  w.fileOpen = false ∨ w.mkdirTemp = none ∨
    ∃ tempDir, w.mkdirTemp = some tempDir ∧
      (w.osCreate (scratchPath w req filename tempDir) = false ∨ w.ioCopy = false ∨
        w.statSize = none)

/-- The monitor of the upload guard along a trace: `scanned` and `converted`
record whether a clean scan and a successful conversion of `scratch` were
seen so far; every call of `uploadToS3` must find `scanned` set and, when the
extension of `scratch` is not `.pdf`, `converted` set. -/
def uploadsGuarded (scratch : Str) : Bool → Bool → List Effect → Bool
  | _, _, [] => true
  | scanned, converted, Effect.scanFileForViruses p true :: t =>
    uploadsGuarded scratch (scanned || p == scratch) converted t
  | scanned, converted, Effect.convertToPDF p true :: t =>
    uploadsGuarded scratch scanned (converted || p == scratch) t
  | scanned, converted, Effect.uploadToS3 _ :: t =>
    scanned && (Ext scratch == ".pdf".toList || converted) &&
      uploadsGuarded scratch scanned converted t
  | scanned, converted, _ :: t => uploadsGuarded scratch scanned converted t

/-! ## Sample requests and worlds -/

/-- A configuration. -/
def sampleConfig : Config :=
  { DoSpacesEndpoint := "https://ams3.example.com".toList,
    DoSpacesBucketName := "cvs".toList,
    DoSecretKeyDoFunctions := "secret".toList }

/-- A world in which every collaborator succeeds: a 500 KB file and a clean scan. -/
def okWorld : World :=
  { fileOpen := true,
    mkdirTemp := some "/tmp/upload123".toList,
    timestamp := "2024-05-06-07-08-09".toList,
    osCreate := fun _ => true,
    ioCopy := true,
    statSize := some 512000,
    clamdscan := fun p => { runOk := true, stdout := p ++ ": OK".toList },
    libreoffice := fun _ _ => true,
    osOpen := fun _ => true,
    putObject := fun _ _ => true }

/-- A request for a file of the given name. -/
def sampleRequest (filename : String) : Request :=
  { userUUID := "u-1".toList, firstName := "Ada".toList, lastName := "Lovelace".toList,
    cvFile := some filename.toList }

/-- The world of `okWorld` with a scan that finds a signature: the command
exits with status 1. -/
def infectedWorld : World :=
  { okWorld with
    clamdscan := fun p => { runOk := false, stdout := p ++ ": Eicar-Signature FOUND".toList } }

/-- The world of `okWorld` with a file of 2 MB. -/
def oversizeWorld : World := { okWorld with statSize := some 2097152 }

/-- The world of `okWorld` with a conversion command that fails. -/
def noConvertWorld : World := { okWorld with libreoffice := fun _ _ => false }

/-- The world of `okWorld` with an uploaded part that cannot be opened. -/
def noOpenWorld : World := { okWorld with fileOpen := false }

/-- A request whose first name climbs out of a directory. -/
def traversalRequest : Request :=
  { userUUID := "u-1".toList, firstName := "../x".toList, lastName := "Lovelace".toList,
    cvFile := some "cv.pdf".toList }

/-- A table of the non-ASCII lower-case mappings that maps nothing. -/
def idTable : Char → Char := fun c => c

/-! ## Lemmas on the extension -/

theorem extScan_append_of_stop (acc : Str) (l m : Str)
    (h : '/' ∈ l ∨ '.' ∈ l) : extScan acc (l ++ m) = extScan acc l := by
  induction l generalizing acc with
  | nil => simp at h
  | cons c l ih =>
    simp only [List.cons_append, extScan, isPathSeparator, beq_iff_eq]
    by_cases h1 : c = '/'
    · simp [h1]
    · by_cases h2 : c = '.'
      · simp [h2]
      · simp only [h1, h2, if_false]
        apply ih
        rcases h with h | h
        · left
          rcases List.mem_cons.mp h with h | h
          · exact absurd h.symm h1
          · exact h
        · right
          rcases List.mem_cons.mp h with h | h
          · exact absurd h.symm h2
          · exact h

theorem extScan_snoc_of_plain (acc : Str) (l : Str) (c : Char)
    (h1 : '/' ∉ l) (h2 : '.' ∉ l) :
    extScan acc (l ++ [c]) =
      if c = '/' then [] else if c = '.' then c :: (l.reverse ++ acc) else [] := by
  induction l generalizing acc with
  | nil => simp [extScan, isPathSeparator]
  | cons d l ih =>
    have hd1 : d ≠ '/' := fun e => h1 (by simp [e])
    have hd2 : d ≠ '.' := fun e => h2 (by simp [e])
    have hl1 : '/' ∉ l := fun e => h1 (List.mem_cons_of_mem _ e)
    have hl2 : '.' ∉ l := fun e => h2 (List.mem_cons_of_mem _ e)
    have step : extScan acc (d :: (l ++ [c])) = extScan (d :: acc) (l ++ [c]) := by
      rw [extScan]
      simp [isPathSeparator, hd1, hd2]
    rw [List.cons_append, step, ih (d :: acc) hl1 hl2]
    simp

theorem Ext_nil : Ext [] = [] := rfl

/-- The loop of `filepath.Ext` unrolled from the front of the path. -/
theorem Ext_cons (c : Char) (t : Str) :
    Ext (c :: t) =
      if '/' ∈ t ∨ '.' ∈ t then Ext t
      else if c = '.' then c :: t else [] := by
  unfold Ext
  rw [List.reverse_cons]
  by_cases h : '/' ∈ t ∨ '.' ∈ t
  · rw [if_pos h]
    apply extScan_append_of_stop
    simpa using h
  · rw [if_neg h]
    have h1 : '/' ∉ t.reverse := fun e => h (Or.inl (by simpa using e))
    have h2 : '.' ∉ t.reverse := fun e => h (Or.inr (by simpa using e))
    rw [extScan_snoc_of_plain [] t.reverse c h1 h2]
    by_cases hc : c = '/'
    · have : c ≠ '.' := by rw [hc]; decide
      simp [hc]
    · simp [hc]

theorem lastElement_of_no_sep (t : Str) (h : '/' ∉ t) : lastElement t = t := by
  cases t with
  | nil => rfl
  | cons c t =>
    have hc : c ≠ '/' := fun e => h (by simp [e])
    have ht : '/' ∉ t := fun e => h (List.mem_cons_of_mem _ e)
    simp [lastElement, hc, ht]

theorem suffixFromLastDot_of_no_dot (t : Str) (h : '.' ∉ t) : suffixFromLastDot t = [] := by
  cases t with
  | nil => rfl
  | cons c t =>
    have hc : c ≠ '.' := fun e => h (by simp [e])
    have ht : '.' ∉ t := fun e => h (List.mem_cons_of_mem _ e)
    simp [suffixFromLastDot, hc, ht]

/-- The loop of `filepath.Ext` computes the extension as the specification
words it. -/
theorem Ext_eq_specExt (p : Str) : Ext p = specExt p := by
  induction p with
  | nil => rfl
  | cons c t ih =>
    rw [Ext_cons]
    unfold specExt at ih ⊢
    by_cases hs : '/' ∈ t
    · simp [lastElement, hs, ih]
    · rw [lastElement_of_no_sep t hs] at ih
      by_cases hd : '.' ∈ t
      · by_cases hc : c = '/'
        · simp [lastElement, hs, hd, hc, ih]
        · simp [lastElement, hs, hd, hc, ih, suffixFromLastDot]
      · by_cases hc : c = '/'
        · simp [lastElement, hs, hd, hc, suffixFromLastDot_of_no_dot t hd]
        · simp [lastElement, hs, hd, hc, suffixFromLastDot]

theorem mapIndex_nil (k : Str) : mapIndex [] k = false := rfl

theorem mapIndex_cons (k k' : Str) (b : Bool) (m : List (Str × Bool)) :
    mapIndex ((k', b) :: m) k = if k = k' then b else mapIndex m k := by
  unfold mapIndex
  by_cases h : k = k'
  · simp [List.lookup, h]
  · have hb : (k == k') = false := by simpa using h
    simp [List.lookup, hb, h]

theorem mapIndex_AllowedExtensions (e : Str) :
    mapIndex AllowedExtensions e = true ↔ e ∈ specAllowList := by
  simp only [AllowedExtensions, specAllowList, mapIndex_cons, mapIndex_nil, List.mem_cons,
    List.mem_singleton, List.not_mem_nil, or_false]
  split_ifs <;> simp_all

/-! ## Lemmas on the token -/

theorem tokenData_eq (u p f : Str) :
    tokenData u p f = u ++ ":".toList ++ p ++ ":".toList ++ f := by
  simp [tokenData, Sprintf]

theorem wordBytes_length (w : Nat) : (wordBytes w).length = 4 := rfl

theorem sha256_length (msg : List Nat) : (sha256 msg).length = 32 := by
  simp [sha256, wordBytes_length]

theorem hmacSha256_length (key msg : List Nat) : (hmacSha256 key msg).length = 32 := by
  unfold hmacSha256
  exact sha256_length _

theorem hexEncodeToString_length (src : List Nat) :
    (hexEncodeToString src).length = 2 * src.length := by
  induction src with
  | nil => rfl
  | cons b t ih =>
    have h : hexEncodeToString (b :: t) =
        hextable.getD (b >>> 4) '0' :: hextable.getD (b &&& 0x0f) '0' :: hexEncodeToString t := rfl
    rw [h]
    simp only [List.length_cons, ih]
    omega

theorem hextable_getD_mem (i : Nat) : hextable.getD i '0' ∈ "0123456789abcdef".toList := by
  by_cases h : i < 16
  · interval_cases i <;> decide
  · have : hextable.getD i '0' = '0' := by
      apply List.getD_eq_default
      simp only [hextable, String.toList]
      simpa using h
    rw [this]
    decide

theorem hexEncodeToString_chars (src : List Nat) :
    ∀ c ∈ hexEncodeToString src, c ∈ "0123456789abcdef".toList := by
  induction src with
  | nil => intro c hc; cases hc
  | cons b t ih =>
    have h : hexEncodeToString (b :: t) =
        hextable.getD (b >>> 4) '0' :: hextable.getD (b &&& 0x0f) '0' :: hexEncodeToString t := rfl
    rw [h]
    intro c hc
    rcases List.mem_cons.mp hc with rfl | hc
    · exact hextable_getD_mem _
    rcases List.mem_cons.mp hc with rfl | hc
    · exact hextable_getD_mem _
    · exact ih c hc

theorem char_eq_of_toNat_eq (c d : Char) (h : c.toNat = d.toNat) : c = d :=
  Char.ext (UInt32.ext h)

/-- The UTF-8 encoding is a prefix code: the encoding of a rune followed by
anything determines the rune. -/
theorem utf8EncodeChar_append_inj (c d : Char) (r s : List Nat)
    (h : utf8EncodeChar c ++ r = utf8EncodeChar d ++ s) : c = d ∧ r = s := by
  have key : c.toNat = d.toNat ∧ r = s := by
    unfold utf8EncodeChar at h
    simp only at h
    split_ifs at h <;>
      simp only [List.cons_append, List.nil_append, List.cons.injEq] at h <;>
      first
        | (exfalso; omega)
        | exact ⟨by omega, by tauto⟩
  exact ⟨char_eq_of_toNat_eq c d key.1, key.2⟩

theorem toBytes_cons (c : Char) (t : Str) : toBytes (c :: t) = utf8EncodeChar c ++ toBytes t := by
  simp [toBytes]

theorem utf8EncodeChar_ne_nil (c : Char) : utf8EncodeChar c ≠ [] := by
  unfold utf8EncodeChar
  simp only
  split_ifs <;> simp

/-- The conversion of a string to its bytes is injective. -/
theorem toBytes_injective (a b : Str) (h : toBytes a = toBytes b) : a = b := by
  induction a generalizing b with
  | nil =>
    cases b with
    | nil => rfl
    | cons d t =>
      rw [toBytes_cons] at h
      have h2 : utf8EncodeChar d = [] := (List.append_eq_nil.mp h.symm).1
      exact absurd h2 (utf8EncodeChar_ne_nil d)
  | cons c t ih =>
    cases b with
    | nil =>
      rw [toBytes_cons] at h
      have h2 : utf8EncodeChar c = [] := (List.append_eq_nil.mp h).1
      exact absurd h2 (utf8EncodeChar_ne_nil c)
    | cons d u =>
      rw [toBytes_cons, toBytes_cons] at h
      obtain ⟨h1, h2⟩ := utf8EncodeChar_append_inj c d _ _ h
      rw [h1, ih u h2]

theorem tokenData_userUUID_inj (u u' p f : Str) (h : tokenData u p f = tokenData u' p f) :
    u = u' := by
  rw [tokenData_eq, tokenData_eq] at h
  simp only [List.append_assoc] at h
  exact List.append_cancel_right h

theorem tokenData_filePath_inj (u p p' f : Str) (h : tokenData u p f = tokenData u p' f) :
    p = p' := by
  rw [tokenData_eq, tokenData_eq] at h
  simp only [List.append_assoc] at h
  have h1 := List.append_cancel_left h
  have h2 := List.append_cancel_left h1
  exact List.append_cancel_right h2

theorem tokenData_fileURL_inj (u p f f' : Str) (h : tokenData u p f = tokenData u p f') :
    f = f' := by
  rw [tokenData_eq, tokenData_eq] at h
  exact List.append_cancel_left h

/-! ## Lemmas on the handler -/

theorem uploadStage_result (cfg : Config) (w : World) (req : Request) (p : Str) :
    (uploadStage cfg w req p).1 = Result.json 500 (Body.error "Failed to upload file to S3") ∨
    ∃ url, (uploadToS3 cfg w p).1 = some url ∧
      (uploadStage cfg w req p).1 = Result.json 200
        (Body.uploaded url p (generateToken cfg.DoSecretKeyDoFunctions req.userUUID p url)) := by
  unfold uploadStage
  rcases h : uploadToS3 cfg w p with ⟨_ | url, effs⟩
  · left; rfl
  · right; exact ⟨url, rfl, rfl⟩

/-- The handler on a request whose scratch file is written and measured. -/
theorem uploadFileHandler_of_persisted (tbl : Char → Char) (cfg : Config) (w : World)
    (req : Request) (filename tempDir : Str) (size : Int)
    (hp : Persisted tbl w req filename tempDir size) :
    uploadFileHandler tbl cfg w req =
      if size > MaxFileSize then
        (Result.json 400 (Body.error "File size exceeds limit"),
          [Effect.mkdirTemp tempDir, Effect.create (scratchPath w req filename tempDir),
           Effect.json 400 (Body.error "File size exceeds limit"), Effect.removeAll tempDir])
      else
        ((scanStage cfg w req (scratchPath w req filename tempDir)).1,
          Effect.mkdirTemp tempDir :: Effect.create (scratchPath w req filename tempDir) ::
            (scanStage cfg w req (scratchPath w req filename tempDir)).2 ++
              [Effect.removeAll tempDir]) := by
  obtain ⟨⟨h1, h2, h3, h4, h5, h6⟩, h7, h8, h9, h10, h11⟩ := hp
  simp only [uploadFileHandler, processUpload, h1, h2, h3, h4, h5, h6, h7, h8, h9, h10, h11,
    or_self, if_false, Bool.not_true, Bool.false_eq_true]
  split_ifs <;> simp

/-! ## The extension allow-list -/

theorem specExt_of_no_dot (filename : Str) (h : '.' ∉ lastElement filename) :
    specExt filename = [] :=
  suffixFromLastDot_of_no_dot _ h

/-- C1: for every filename `allowedFile` returns true if and only if the
lower-cased extension of the filename, the suffix that starts at the last dot
of the last path element and is empty when there is no dot, is one of `.pdf`,
`.doc`, `.docx`, `.odt`, `.rtf`, `.wps`, `.wpd`; `REPORT.PDF` is accepted, and
a filename with another extension or with none is rejected. -/
theorem allowedFile_iff_lowercased_extension_allowed (tbl : Char → Char) :
    (∀ filename : Str,
      allowedFile tbl filename = true ↔ ToLower tbl (specExt filename) ∈ specAllowList) ∧
    allowedFile tbl "REPORT.PDF".toList = true ∧
    (∀ filename : Str,
      ToLower tbl (specExt filename) ∉ specAllowList → allowedFile tbl filename = false) ∧
    (∀ filename : Str, '.' ∉ lastElement filename → allowedFile tbl filename = false) := by
  have main : ∀ filename : Str,
      allowedFile tbl filename = true ↔ ToLower tbl (specExt filename) ∈ specAllowList := by
    intro filename
    unfold allowedFile
    simp only [Ext_eq_specExt]
    exact mapIndex_AllowedExtensions _
  refine ⟨main, by rfl, ?_, ?_⟩
  · intro filename h
    cases hv : allowedFile tbl filename with
    | false => rfl
    | true => exact absurd ((main filename).mp hv) h
  · intro filename h
    cases hv : allowedFile tbl filename with
    | false => rfl
    | true =>
      have hm := (main filename).mp hv
      rw [specExt_of_no_dot filename h] at hm
      exact absurd hm (by simp [ToLower, specAllowList])

/-- The rejection of `resume.exe` and of `README`, by C1. -/
theorem allowedFile_rejects_witness :
    allowedFile idTable "resume.exe".toList = false ∧
    allowedFile idTable "README".toList = false :=
  ⟨(allowedFile_iff_lowercased_extension_allowed idTable).2.2.1 "resume.exe".toList (by decide),
   (allowedFile_iff_lowercased_extension_allowed idTable).2.2.2 "README".toList (by decide)⟩

/-! ## The token -/

theorem sha256Pad_length (msg : List Nat) :
    (sha256Pad msg).length = 64 * ((sha256Pad msg).length / 64) := by
  have h : (sha256Pad msg).length = msg.length + 1 + (119 - msg.length % 64) % 64 + 8 := by
    simp [sha256Pad]
    omega
  rw [h]
  omega

theorem blocks64_flatten (n : Nat) (l : List Nat) (h : l.length = 64 * n) :
    (blocks64 n l).flatten = l := by
  induction n generalizing l with
  | zero =>
    have hl : l = [] := List.length_eq_zero.mp (by simpa using h)
    rw [hl]
    rfl
  | succ n ih =>
    have hd : (l.drop 64).length = 64 * n := by
      rw [List.length_drop, h]
      omega
    simp only [blocks64, List.flatten_cons, ih (l.drop 64) hd, List.take_append_drop]

/-- The blocks that `sha256` compresses are the whole padded message, and
the padded message starts with the message. -/
theorem sha256_blocks_cover (msg : List Nat) :
    (blocks64 ((sha256Pad msg).length / 64) (sha256Pad msg)).flatten = sha256Pad msg ∧
    msg <+: sha256Pad msg :=
  ⟨blocks64_flatten _ _ (sha256Pad_length msg), by
    unfold sha256Pad
    simp only [List.append_assoc]
    exact List.prefix_append _ _⟩

section KnownAnswers

set_option maxRecDepth 100000

set_option maxHeartbeats 4000000

theorem sha256_answer_1 :
    hexEncodeToString (sha256 []) =
        "e3b0c44298fc1c149afbf4c8996fb92427ae41e4649b934ca495991b7852b855".toList := by
  decide!

theorem sha256_answer_2 :
    hexEncodeToString (sha256 (toBytes "abc".toList)) =
        "ba7816bf8f01cfea414140de5dae2223b00361a396177a9cb410ff61f20015ad".toList := by
  decide!

theorem sha256_answer_3 :
    hexEncodeToString (sha256 (toBytes
          "abcdbcdecdefdefgefghfghighijhijkijkljklmklmnlmnomnopnopq".toList)) =
        "248d6a61d20638b8e5c026930c3e6039a33ce45964ff2167f6ecedd419db06c1".toList := by
  decide!

theorem hmacSha256_answer_1 :
    hexEncodeToString (hmacSha256 (List.replicate 20 0x0b) (toBytes "Hi There".toList)) =
        "b0344c61d8db38535ca8afceaf0bf12b881dc200c9833da726e9376c2e32cff7".toList := by
  decide!

theorem hmacSha256_answer_2 :
    hexEncodeToString (hmacSha256 (toBytes "Jefe".toList)
          (toBytes "what do ya want for nothing?".toList)) =
        "5bdcc146bf60754e6a042426089575c75a003f089d2739839dec58b964ec3843".toList := by
  decide!

theorem hmacSha256_answer_3 :
    hexEncodeToString (hmacSha256 (List.replicate 20 0xaa) (List.replicate 50 0xdd)) =
        "773ea91e36800e46854db8ebd09181a72959098b3ef8c122d9635514ced565fe".toList := by
  decide!

theorem hmacSha256_answer_4 :
    hexEncodeToString (hmacSha256 ((List.range 25).map (fun i => i + 1))
          (List.replicate 50 0xcd)) =
        "82558a389a443c0ea4cc819899f2083a85f0faa3e578f8077a2e3ff46729665b".toList := by
  decide!

theorem hmacSha256_answer_5 :
    hexEncodeToString (hmacSha256 (List.replicate 131 0xaa)
          (toBytes "Test Using Larger Than Block-Size Key - Hash Key First".toList)) =
        "60e431591ee0b67f0d8a26aacbf5b77f8e0bc6213728c5140546040f0ee37f54".toList := by
  decide!

theorem hmacSha256_answer_6 :
    hexEncodeToString (hmacSha256 (List.replicate 131 0xaa)
          (toBytes ("This is a test using a larger than block-size key and a larger than " ++
            "block-size data. The key needs to be hashed before being used by the HMAC " ++
            "algorithm.").toList)) =
        "9b09ffa71b942fcb27635fbcd5b0e944bfdc63644f0713938a7f51535c3a35e2".toList := by
  decide!

theorem generateToken_answer_1 :
    generateToken "secret".toList "u-1".toList "/tmp/a.pdf".toList "https://h/b/a.pdf".toList =
        "a358b40041f308a3ad1615ac9484ad2aef551a1ab19c0e0140ca7c299c2f8af5".toList := by
  decide!

theorem generateToken_answer_2 :
    generateToken "secret2".toList "u-1".toList "/tmp/a.pdf".toList
          "https://h/b/a.pdf".toList =
        "40b12bc9ec4ed59c0b2f2cded45a9a2677b947713d06f20d4a3d992e7c236725".toList := by
  decide!

theorem generateToken_answer_3 :
    generateToken "secret".toList "u-2".toList "/tmp/a.pdf".toList "https://h/b/a.pdf".toList =
        "bb8fcd53aa92477492609734f511da05e36e01c0e5f7b7d6732fef78691af3fd".toList := by
  decide!

theorem generateToken_answer_4 :
    generateToken "clé".toList "ü-1".toList "/tmp/Zoë.pdf".toList
          "https://h/b/Zoë.pdf".toList =
        "82483cad8b142c192f6343f37a010fdd602adced6bc9381ca1c0765b7523c224".toList := by
  decide!

/-- C5: `generateToken` returns the lower-case hexadecimal encoding of the
HMAC-SHA256, keyed by the secret, of `id ++ ":" ++ path ++ ":" ++ url`; the
token has exactly 64 characters, all of them hexadecimal digits in lower
case, and equal inputs under an equal secret give equal tokens. That the
code computed is HMAC-SHA256 is fixed by the answers of the standards: the
digests of FIPS 180-4 for the empty message, `abc` and the 56-byte message,
the codes of RFC 4231 (test cases 1, 2, 3, 4, 6 and 7, with keys shorter and
longer than a block and messages of one and of several blocks), and tokens
that change with the secret and with the message. -/
theorem generateToken_is_hex_hmac :
    (∀ secret userUUID filePath fileURL : Str,
      generateToken secret userUUID filePath fileURL =
        hexEncodeToString (hmacSha256 (toBytes secret)
          (toBytes (userUUID ++ ":".toList ++ filePath ++ ":".toList ++ fileURL))) ∧
      (generateToken secret userUUID filePath fileURL).length = 64 ∧
      (∀ c ∈ generateToken secret userUUID filePath fileURL, c ∈ "0123456789abcdef".toList) ∧
      (∀ secret' userUUID' filePath' fileURL' : Str,
        secret' = secret → userUUID' = userUUID → filePath' = filePath → fileURL' = fileURL →
        generateToken secret' userUUID' filePath' fileURL' =
          generateToken secret userUUID filePath fileURL)) ∧
    (∀ msg : List Nat,
      (blocks64 ((sha256Pad msg).length / 64) (sha256Pad msg)).flatten = sha256Pad msg ∧
      msg <+: sha256Pad msg) ∧
    (hexEncodeToString (sha256 []) =
        "e3b0c44298fc1c149afbf4c8996fb92427ae41e4649b934ca495991b7852b855".toList ∧
      hexEncodeToString (sha256 (toBytes "abc".toList)) =
        "ba7816bf8f01cfea414140de5dae2223b00361a396177a9cb410ff61f20015ad".toList ∧
      hexEncodeToString (sha256 (toBytes
          "abcdbcdecdefdefgefghfghighijhijkijkljklmklmnlmnomnopnopq".toList)) =
        "248d6a61d20638b8e5c026930c3e6039a33ce45964ff2167f6ecedd419db06c1".toList) ∧
    (hexEncodeToString (hmacSha256 (List.replicate 20 0x0b) (toBytes "Hi There".toList)) =
        "b0344c61d8db38535ca8afceaf0bf12b881dc200c9833da726e9376c2e32cff7".toList ∧
      hexEncodeToString (hmacSha256 (toBytes "Jefe".toList)
          (toBytes "what do ya want for nothing?".toList)) =
        "5bdcc146bf60754e6a042426089575c75a003f089d2739839dec58b964ec3843".toList ∧
      hexEncodeToString (hmacSha256 (List.replicate 20 0xaa) (List.replicate 50 0xdd)) =
        "773ea91e36800e46854db8ebd09181a72959098b3ef8c122d9635514ced565fe".toList ∧
      hexEncodeToString (hmacSha256 ((List.range 25).map (fun i => i + 1))
          (List.replicate 50 0xcd)) =
        "82558a389a443c0ea4cc819899f2083a85f0faa3e578f8077a2e3ff46729665b".toList ∧
      hexEncodeToString (hmacSha256 (List.replicate 131 0xaa)
          (toBytes "Test Using Larger Than Block-Size Key - Hash Key First".toList)) =
        "60e431591ee0b67f0d8a26aacbf5b77f8e0bc6213728c5140546040f0ee37f54".toList ∧
      hexEncodeToString (hmacSha256 (List.replicate 131 0xaa)
          (toBytes ("This is a test using a larger than block-size key and a larger than " ++
            "block-size data. The key needs to be hashed before being used by the HMAC " ++
            "algorithm.").toList)) =
        "9b09ffa71b942fcb27635fbcd5b0e944bfdc63644f0713938a7f51535c3a35e2".toList) ∧
    (generateToken "secret".toList "u-1".toList "/tmp/a.pdf".toList "https://h/b/a.pdf".toList =
        "a358b40041f308a3ad1615ac9484ad2aef551a1ab19c0e0140ca7c299c2f8af5".toList ∧
      generateToken "secret2".toList "u-1".toList "/tmp/a.pdf".toList
          "https://h/b/a.pdf".toList =
        "40b12bc9ec4ed59c0b2f2cded45a9a2677b947713d06f20d4a3d992e7c236725".toList ∧
      generateToken "secret".toList "u-2".toList "/tmp/a.pdf".toList "https://h/b/a.pdf".toList =
        "bb8fcd53aa92477492609734f511da05e36e01c0e5f7b7d6732fef78691af3fd".toList ∧
      generateToken "clé".toList "ü-1".toList "/tmp/Zoë.pdf".toList
          "https://h/b/Zoë.pdf".toList =
        "82483cad8b142c192f6343f37a010fdd602adced6bc9381ca1c0765b7523c224".toList) := by
  refine ⟨?_, sha256_blocks_cover, ?_, ?_, ?_⟩
  · intro secret userUUID filePath fileURL
    refine ⟨?_, ?_, ?_, ?_⟩
    · unfold generateToken
      simp only [tokenData_eq]
    · unfold generateToken
      rw [hexEncodeToString_length, hmacSha256_length]
    · unfold generateToken
      exact hexEncodeToString_chars _
    · intro s u p f hs hu hp hf
      rw [hs, hu, hp, hf]
  · exact ⟨sha256_answer_1, sha256_answer_2, sha256_answer_3⟩
  · exact ⟨hmacSha256_answer_1, hmacSha256_answer_2, hmacSha256_answer_3, hmacSha256_answer_4,
      hmacSha256_answer_5, hmacSha256_answer_6⟩
  · exact ⟨generateToken_answer_1, generateToken_answer_2, generateToken_answer_3,
      generateToken_answer_4⟩

/-- The token of one upload has the character `a`, a hexadecimal digit by C5,
and the same inputs under the same secret give the same token. -/
theorem generateToken_is_hex_hmac_witness :
    'a' ∈ generateToken "secret".toList "u-1".toList "/tmp/a.pdf".toList
        "https://h/b/a.pdf".toList ∧
    'a' ∈ "0123456789abcdef".toList ∧
    generateToken ("sec".toList ++ "ret".toList) "u-1".toList "/tmp/a.pdf".toList
        "https://h/b/a.pdf".toList =
      generateToken "secret".toList "u-1".toList "/tmp/a.pdf".toList
        "https://h/b/a.pdf".toList :=
  have hmem : 'a' ∈ generateToken "secret".toList "u-1".toList "/tmp/a.pdf".toList
      "https://h/b/a.pdf".toList := by
    rw [generateToken_answer_1]
    decide
  ⟨hmem,
   (generateToken_is_hex_hmac.1 "secret".toList "u-1".toList "/tmp/a.pdf".toList
      "https://h/b/a.pdf".toList).2.2.1 'a' hmem,
   (generateToken_is_hex_hmac.1 "secret".toList "u-1".toList "/tmp/a.pdf".toList
      "https://h/b/a.pdf".toList).2.2.2 _ _ _ _ (by decide) rfl rfl rfl⟩

end KnownAnswers

/-- C10: the authenticated message does not encode the triple injectively:
the distinct triples `("a:b", "c", u)` and `("a", "b:c", u)` have the same
message, hence the same token under every secret; but a change of exactly
one of the three inputs, the other two fixed, changes the message. -/
theorem tokenData_collides_across_fields :
    ("a:b".toList, "c".toList) ≠ ("a".toList, "b:c".toList) ∧
    (∀ u : Str,
      toBytes (tokenData "a:b".toList "c".toList u) =
        toBytes (tokenData "a".toList "b:c".toList u)) ∧
    (∀ secret u : Str,
      generateToken secret "a:b".toList "c".toList u =
        generateToken secret "a".toList "b:c".toList u) ∧
    (∀ id id' path url : Str, id ≠ id' →
      toBytes (tokenData id path url) ≠ toBytes (tokenData id' path url)) ∧
    (∀ id path path' url : Str, path ≠ path' →
      toBytes (tokenData id path url) ≠ toBytes (tokenData id path' url)) ∧
    (∀ id path url url' : Str, url ≠ url' →
      toBytes (tokenData id path url) ≠ toBytes (tokenData id path url')) := by
  have hmsg : ∀ u : Str,
      tokenData "a:b".toList "c".toList u = tokenData "a".toList "b:c".toList u := by
    intro u
    simp [tokenData_eq]
  refine ⟨by decide, ?_, ?_, ?_, ?_, ?_⟩
  · intro u
    rw [hmsg u]
  · intro secret u
    unfold generateToken
    simp only [hmsg u]
  · intro id id' path url hne h
    exact hne (tokenData_userUUID_inj _ _ _ _ (toBytes_injective _ _ h))
  · intro id path path' url hne h
    exact hne (tokenData_filePath_inj _ _ _ _ (toBytes_injective _ _ h))
  · intro id path url url' hne h
    exact hne (tokenData_fileURL_inj _ _ _ _ (toBytes_injective _ _ h))

/-- Two submitter ids with the same path and URL have different messages, by C10. -/
theorem tokenData_collides_across_fields_witness :
    toBytes (tokenData "u-1".toList "/tmp/a.pdf".toList "https://h/b/a.pdf".toList) ≠
      toBytes (tokenData "u-2".toList "/tmp/a.pdf".toList "https://h/b/a.pdf".toList) :=
  tokenData_collides_across_fields.2.2.2.1 "u-1".toList "u-2".toList _ _ (by decide)

/-! ## The scan stage and the size limit -/

theorem scanFileForViruses_eq_true_iff (w : World) (path : Str) :
    scanFileForViruses w path = true ↔
      (w.clamdscan path).runOk = true ∧
        Contains (w.clamdscan path).stdout "OK".toList = true := by
  unfold scanFileForViruses
  cases h : (w.clamdscan path).runOk <;> simp [h]

theorem uploadStage_fst_cases (cfg : Config) (w : World) (req : Request) (p : Str) :
    (uploadStage cfg w req p).1 = Result.json 500 (Body.error "Failed to upload file to S3") ∨
    ∃ url tok, (uploadStage cfg w req p).1 = Result.json 200 (Body.uploaded url p tok) := by
  rcases uploadStage_result cfg w req p with h | ⟨url, _, h⟩
  · exact Or.inl h
  · exact Or.inr ⟨url, _, h⟩

theorem convertStage_fst_cases (cfg : Config) (w : World) (req : Request) (p : Str) :
    (convertStage cfg w req p).1 = Result.json 500 (Body.error "Failed to convert file to PDF") ∨
    (convertStage cfg w req p).1 = Result.json 500 (Body.error "Failed to upload file to S3") ∨
    ∃ url q tok, (convertStage cfg w req p).1 = Result.json 200 (Body.uploaded url q tok) := by
  unfold convertStage
  split_ifs with h
  · rcases hc : convertToPDF w p with ⟨_ | q, effs⟩
    · left; rfl
    · right
      rcases uploadStage_fst_cases cfg w req q with h | ⟨url, tok, h⟩
      · exact Or.inl h
      · exact Or.inr ⟨url, q, tok, h⟩
  · right
    rcases uploadStage_fst_cases cfg w req p with h | ⟨url, tok, h⟩
    · exact Or.inl h
    · exact Or.inr ⟨url, p, tok, h⟩

theorem scanStage_fst_cases (cfg : Config) (w : World) (req : Request) (p : Str) :
    (scanStage cfg w req p).1 = Result.json 400 (Body.error "File might be infected") ∨
    (scanStage cfg w req p).1 = Result.json 500 (Body.error "Failed to convert file to PDF") ∨
    (scanStage cfg w req p).1 = Result.json 500 (Body.error "Failed to upload file to S3") ∨
    ∃ url q tok, (scanStage cfg w req p).1 = Result.json 200 (Body.uploaded url q tok) := by
  unfold scanStage
  split_ifs with h
  · left; rfl
  · right; exact convertStage_fst_cases cfg w req p

theorem scanStage_fst_ne_oversize (cfg : Config) (w : World) (req : Request) (p : Str) :
    (scanStage cfg w req p).1 ≠ Result.json 400 (Body.error "File size exceeds limit") := by
  intro h
  rcases scanStage_fst_cases cfg w req p with h1 | h1 | h1 | ⟨url, q, tok, h1⟩ <;>
    rw [h1] at h <;> simp at h

theorem scanStage_snd_has_scan (cfg : Config) (w : World) (req : Request) (p : Str) :
    Effect.scanFileForViruses p (scanFileForViruses w p) ∈ (scanStage cfg w req p).2 := by
  unfold scanStage
  cases h : scanFileForViruses w p <;> simp

/-- C2: the scanner reports clean only when the scan command exits
successfully and its output contains the marker `OK`; and a request that
reaches the scan stage with a result that is not clean (an error of the
command, or no marker) is answered 400 `File might be infected`, and neither
the converter nor the uploader nor the token issuer is invoked. -/
theorem scan_is_fail_closed (tbl : Char → Char) (cfg : Config) (w : World) (req : Request) :
    (∀ path : Str, scanFileForViruses w path = true →
      (w.clamdscan path).runOk = true ∧
        Contains (w.clamdscan path).stdout "OK".toList = true) ∧
    (∀ (filename tempDir : Str) (size : Int),
      Persisted tbl w req filename tempDir size → size ≤ MaxFileSize →
      ((w.clamdscan (scratchPath w req filename tempDir)).runOk = false ∨
        Contains (w.clamdscan (scratchPath w req filename tempDir)).stdout "OK".toList = false) →
      (uploadFileHandler tbl cfg w req).1 =
          Result.json 400 (Body.error "File might be infected") ∧
      ∀ e ∈ (uploadFileHandler tbl cfg w req).2,
        e.isConvert = false ∧ e.isUpload = false ∧ e.isToken = false) := by
  refine ⟨fun path h => (scanFileForViruses_eq_true_iff w path).mp h, ?_⟩
  intro filename tempDir size hp hs hbad
  have hscan : scanFileForViruses w (scratchPath w req filename tempDir) = false := by
    cases hv : scanFileForViruses w (scratchPath w req filename tempDir) with
    | false => rfl
    | true =>
      have := (scanFileForViruses_eq_true_iff w _).mp hv
      rcases hbad with hb | hb
      · rw [this.1] at hb; cases hb
      · rw [this.2] at hb; cases hb
  rw [uploadFileHandler_of_persisted tbl cfg w req filename tempDir size hp,
    if_neg (not_lt.mpr hs)]
  have hst : scanStage cfg w req (scratchPath w req filename tempDir) =
      (Result.json 400 (Body.error "File might be infected"),
        [Effect.scanFileForViruses (scratchPath w req filename tempDir) false,
         Effect.json 400 (Body.error "File might be infected")]) := by
    simp [scanStage, hscan]
  rw [hst]
  refine ⟨rfl, ?_⟩
  intro e he
  simp only [List.cons_append, List.nil_append, List.mem_cons, List.mem_singleton,
    List.not_mem_nil, or_false] at he
  rcases he with rfl | rfl | rfl | rfl | rfl <;> exact ⟨rfl, rfl, rfl⟩

/-- An infected upload is answered 400 `File might be infected`, by C2. -/
theorem scan_is_fail_closed_witness :
    (uploadFileHandler idTable sampleConfig infectedWorld (sampleRequest "resume.pdf")).1 =
      Result.json 400 (Body.error "File might be infected") :=
  ((scan_is_fail_closed idTable sampleConfig infectedWorld (sampleRequest "resume.pdf")).2
    "resume.pdf".toList "/tmp/upload123".toList 512000 (by decide) (by decide)
    (Or.inl (by decide))).1

/-- C4: a request that passes the required-field and extension checks and
whose scratch file is written is answered 400 `File size exceeds limit`,
without scan, conversion or upload, if and only if the measured size is
strictly greater than 1,572,864 = 1.5 * 1024 * 1024; a file of at most that
size, so one of exactly 1,572,864 bytes, proceeds to the scan stage. -/
theorem oversize_iff_gt_max (tbl : Char → Char) (cfg : Config) (w : World) (req : Request)
    (filename tempDir : Str) (size : Int)
    (hp : Persisted tbl w req filename tempDir size) :
    ((uploadFileHandler tbl cfg w req).1 =
        Result.json 400 (Body.error "File size exceeds limit") ↔ size > 1572864) ∧
    (size > 1572864 → ∀ e ∈ (uploadFileHandler tbl cfg w req).2,
      e.isScan = false ∧ e.isConvert = false ∧ e.isUpload = false ∧ e.isToken = false) ∧
    (size ≤ 1572864 → ∃ clean : Bool,
      Effect.scanFileForViruses (scratchPath w req filename tempDir) clean ∈
        (uploadFileHandler tbl cfg w req).2) ∧
    (MaxFileSize : ℚ) = 1.5 * 1024 * 1024 := by
  have hmax : MaxFileSize = 1572864 := rfl
  rw [uploadFileHandler_of_persisted tbl cfg w req filename tempDir size hp, hmax]
  refine ⟨?_, ?_, ?_, ?_⟩
  · constructor
    · intro h
      by_contra hn
      rw [if_neg hn] at h
      exact scanStage_fst_ne_oversize cfg w req _ h
    · intro h
      rw [if_pos h]
  · intro h e he
    rw [if_pos h] at he
    simp only [List.mem_cons, List.mem_singleton, List.not_mem_nil, or_false] at he
    rcases he with rfl | rfl | rfl | rfl <;> exact ⟨rfl, rfl, rfl, rfl⟩
  · intro h
    rw [if_neg (not_lt.mpr h)]
    refine ⟨scanFileForViruses w (scratchPath w req filename tempDir), ?_⟩
    exact List.mem_cons_of_mem _ (List.mem_cons_of_mem _
      (List.mem_append_left _ (scanStage_snd_has_scan cfg w req _)))
  · norm_num

/-- A file of 2 MB is answered 400 `File size exceeds limit`, by C4. -/
theorem oversize_iff_gt_max_witness :
    (uploadFileHandler idTable sampleConfig oversizeWorld (sampleRequest "resume.pdf")).1 =
      Result.json 400 (Body.error "File size exceeds limit") :=
  (oversize_iff_gt_max idTable sampleConfig oversizeWorld (sampleRequest "resume.pdf")
    "resume.pdf".toList "/tmp/upload123".toList 2097152 (by decide)).1.mpr (by decide)

/-! ## The guard of the upload -/

/-- What the monitor accepts holds of every call of the uploader in the
trace: a clean scan of `scratch` precedes it and, unless `scratch` has the
extension `.pdf`, a successful conversion of `scratch` precedes it. -/
theorem uploadsGuarded_sound (scratch : Str) (pre post : List Effect) (p : Str)
    (scanned converted : Bool)
    (h : uploadsGuarded scratch scanned converted (pre ++ Effect.uploadToS3 p :: post) = true) :
    (scanned = true ∨ Effect.scanFileForViruses scratch true ∈ pre) ∧
    (Ext scratch = ".pdf".toList ∨ converted = true ∨
      Effect.convertToPDF scratch true ∈ pre) := by
  induction pre generalizing scanned converted with
  | nil =>
    simp only [List.nil_append, uploadsGuarded, Bool.and_eq_true, Bool.or_eq_true,
      beq_iff_eq] at h
    exact ⟨Or.inl h.1.1, by tauto⟩
  | cons e pre ih =>
    have lift : ∀ s c : Bool,
        ((s = true ∨ Effect.scanFileForViruses scratch true ∈ pre) ∧
          (Ext scratch = ".pdf".toList ∨ c = true ∨ Effect.convertToPDF scratch true ∈ pre)) →
        (s = true ∨ Effect.scanFileForViruses scratch true ∈ e :: pre) ∧
          (Ext scratch = ".pdf".toList ∨ c = true ∨
            Effect.convertToPDF scratch true ∈ e :: pre) := by
      intro s c hh
      exact ⟨hh.1.imp id (List.mem_cons_of_mem _),
        hh.2.imp id (Or.imp id (List.mem_cons_of_mem _))⟩
    rw [List.cons_append] at h
    cases e with
    | scanFileForViruses q clean =>
      cases clean with
      | false => exact lift _ _ (ih scanned converted h)
      | true =>
        have h2 := ih (scanned || q == scratch) converted h
        refine ⟨?_, (lift _ _ h2).2⟩
        rcases h2.1 with h3 | h3
        · simp only [Bool.or_eq_true, beq_iff_eq] at h3
          rcases h3 with h3 | h3
          · exact Or.inl h3
          · right; rw [h3]; exact List.mem_cons_self _ _
        · exact Or.inr (List.mem_cons_of_mem _ h3)
    | convertToPDF q ok =>
      cases ok with
      | false => exact lift _ _ (ih scanned converted h)
      | true =>
        have h2 := ih scanned (converted || q == scratch) h
        refine ⟨(lift _ _ h2).1, ?_⟩
        rcases h2.2 with h3 | h3 | h3
        · exact Or.inl h3
        · simp only [Bool.or_eq_true, beq_iff_eq] at h3
          rcases h3 with h3 | h3
          · exact Or.inr (Or.inl h3)
          · right; right; rw [h3]; exact List.mem_cons_self _ _
        · exact Or.inr (Or.inr (List.mem_cons_of_mem _ h3))
    | uploadToS3 q =>
      simp only [uploadsGuarded, Bool.and_eq_true] at h
      exact lift _ _ (ih scanned converted h.2)
    | mkdirTemp d => exact lift _ _ (ih scanned converted h)
    | create q => exact lift _ _ (ih scanned converted h)
    | remove q => exact lift _ _ (ih scanned converted h)
    | putObject b k ok => exact lift _ _ (ih scanned converted h)
    | generateToken a b c => exact lift _ _ (ih scanned converted h)
    | json st body => exact lift _ _ (ih scanned converted h)
    | removeAll d => exact lift _ _ (ih scanned converted h)

/-- The monitor accepts the trace of the upload stage once a clean scan was
seen and the path is fit for upload. -/
theorem uploadStage_guarded (cfg : Config) (w : World) (req : Request) (scratch p : Str)
    (converted : Bool) (tail : List Effect)
    (hfit : (Ext scratch == ".pdf".toList || converted) = true)
    (htail : ∀ s c, uploadsGuarded scratch s c tail = true) :
    uploadsGuarded scratch true converted ((uploadStage cfg w req p).2 ++ tail) = true := by
  have hfit2 : Ext scratch = ['.', 'p', 'd', 'f'] ∨ converted = true := by simpa using hfit
  by_cases ho : w.osOpen p = true
  · by_cases hp : w.putObject cfg.DoSpacesBucketName (Base p) = true
    · simp [uploadStage, uploadToS3, ho, hp, uploadsGuarded, htail, hfit2]
    · simp [uploadStage, uploadToS3, ho, hp, uploadsGuarded, htail, hfit2]
  · simp [uploadStage, uploadToS3, ho, uploadsGuarded, htail, hfit2]

theorem removeAll_guarded (scratch d : Str) (s c : Bool) :
    uploadsGuarded scratch s c [Effect.removeAll d] = true := rfl

theorem convertStage_guarded (cfg : Config) (w : World) (req : Request) (scratch : Str)
    (tail : List Effect) (htail : ∀ s c, uploadsGuarded scratch s c tail = true) :
    uploadsGuarded scratch true false ((convertStage cfg w req scratch).2 ++ tail) = true := by
  unfold convertStage
  by_cases hext : Ext scratch = ".pdf".toList
  · rw [if_neg (not_not.mpr hext)]
    exact uploadStage_guarded cfg w req scratch scratch false tail (by simp [hext]) htail
  · rw [if_pos hext]
    unfold convertToPDF
    by_cases hl : w.libreoffice scratch (Dir scratch) = true
    · simp only [hl, Bool.not_true, Bool.false_eq_true, if_false, List.cons_append,
        List.nil_append, List.append_assoc]
      have := uploadStage_guarded cfg w req scratch (outputPath scratch) true tail (by simp) htail
      simpa [uploadsGuarded] using this
    · simp [hl, uploadsGuarded, htail]

theorem scanStage_guarded (cfg : Config) (w : World) (req : Request) (scratch : Str)
    (tail : List Effect) (htail : ∀ s c, uploadsGuarded scratch s c tail = true) :
    uploadsGuarded scratch false false ((scanStage cfg w req scratch).2 ++ tail) = true := by
  unfold scanStage
  by_cases hs : scanFileForViruses w scratch = true
  · simp only [hs, Bool.not_true, Bool.false_eq_true, if_false, List.cons_append]
    have := convertStage_guarded cfg w req scratch tail htail
    simpa [uploadsGuarded] using this
  · simp [hs, uploadsGuarded, htail]

theorem processUpload_guarded (cfg : Config) (w : World) (req : Request)
    (filename tempDir : Str) (tail : List Effect)
    (htail : ∀ s c, uploadsGuarded (scratchPath w req filename tempDir) s c tail = true) :
    uploadsGuarded (scratchPath w req filename tempDir) false false
      ((processUpload cfg w req filename tempDir).2 ++ tail) = true := by
  unfold processUpload
  simp only
  split_ifs with h1 h2
  · simpa using htail _ _
  · simpa [uploadsGuarded] using htail _ _
  · cases hst : w.statSize with
    | none => simpa [uploadsGuarded] using htail _ _
    | some size =>
      simp only
      split_ifs with h3
      · simpa [uploadsGuarded] using htail _ _
      · have := scanStage_guarded cfg w req (scratchPath w req filename tempDir) tail htail
        simpa [uploadsGuarded] using this

/-- The monitor accepts every trace of the handler. -/
theorem uploadFileHandler_guarded (tbl : Char → Char) (cfg : Config) (w : World)
    (req : Request) (filename tempDir : Str)
    (hf : req.cvFile = some filename) (hd : w.mkdirTemp = some tempDir) :
    uploadsGuarded (scratchPath w req filename tempDir) false false
      (uploadFileHandler tbl cfg w req).2 = true := by
  unfold uploadFileHandler
  simp only [hf, hd, respond]
  split_ifs
  any_goals rfl
  have := processUpload_guarded cfg w req filename tempDir [Effect.removeAll tempDir]
    (fun s c => removeAll_guarded _ _ s c)
  simpa [uploadsGuarded] using this

/-- Without a file part or without a scratch directory the handler performs
no effect but a response. -/
theorem uploadFileHandler_trace_of_no_dir (tbl : Char → Char) (cfg : Config) (w : World)
    (req : Request) (h : req.cvFile = none ∨ w.mkdirTemp = none) :
    ∀ e ∈ (uploadFileHandler tbl cfg w req).2, ∃ status body, e = Effect.json status body := by
  unfold uploadFileHandler respond
  intro e he
  rcases h with h | h
  · simp only [h] at he
    split_ifs at he <;> simp at he <;> exact ⟨_, _, he⟩
  · cases hf : req.cvFile with
    | none =>
      simp only [hf] at he
      split_ifs at he <;> simp at he <;> exact ⟨_, _, he⟩
    | some filename =>
      simp only [hf, h] at he
      split_ifs at he <;> simp at he <;> exact ⟨_, _, he⟩

/-- C3: in the trace of the handler every call of the uploader is preceded by
a clean scan of the scratch file and, when the extension of the scratch file
is not `.pdf`, by a successful conversion of it; a conversion that fails is
answered 500 `Failed to convert file to PDF` and the object store is not
called. -/
theorem upload_only_after_clean_scan_and_conversion (tbl : Char → Char) (cfg : Config)
    (w : World) (req : Request) :
    (∀ (pre post : List Effect) (p : Str),
      (uploadFileHandler tbl cfg w req).2 = pre ++ Effect.uploadToS3 p :: post →
      ∃ filename tempDir : Str,
        req.cvFile = some filename ∧ w.mkdirTemp = some tempDir ∧
        Effect.scanFileForViruses (scratchPath w req filename tempDir) true ∈ pre ∧
        (Ext (scratchPath w req filename tempDir) ≠ ".pdf".toList →
          Effect.convertToPDF (scratchPath w req filename tempDir) true ∈ pre)) ∧
    (∀ (filename tempDir : Str) (size : Int),
      Persisted tbl w req filename tempDir size → size ≤ MaxFileSize →
      scanFileForViruses w (scratchPath w req filename tempDir) = true →
      Ext (scratchPath w req filename tempDir) ≠ ".pdf".toList →
      w.libreoffice (scratchPath w req filename tempDir)
        (Dir (scratchPath w req filename tempDir)) = false →
      (uploadFileHandler tbl cfg w req).1 =
          Result.json 500 (Body.error "Failed to convert file to PDF") ∧
      ∀ e ∈ (uploadFileHandler tbl cfg w req).2, e.isUpload = false) := by
  constructor
  · intro pre post p hsplit
    cases hf : req.cvFile with
    | none =>
      have hmem : Effect.uploadToS3 p ∈ (uploadFileHandler tbl cfg w req).2 := by
        rw [hsplit]; simp
      obtain ⟨st, body, he⟩ := uploadFileHandler_trace_of_no_dir tbl cfg w req (Or.inl hf) _ hmem
      cases he
    | some filename =>
      cases hd : w.mkdirTemp with
      | none =>
        have hmem : Effect.uploadToS3 p ∈ (uploadFileHandler tbl cfg w req).2 := by
          rw [hsplit]; simp
        obtain ⟨st, body, he⟩ :=
          uploadFileHandler_trace_of_no_dir tbl cfg w req (Or.inr hd) _ hmem
        cases he
      | some tempDir =>
        have hg := uploadFileHandler_guarded tbl cfg w req filename tempDir hf hd
        rw [hsplit] at hg
        have hs := uploadsGuarded_sound _ pre post p false false hg
        refine ⟨filename, tempDir, rfl, rfl, ?_, ?_⟩
        · rcases hs.1 with h | h
          · cases h
          · exact h
        · intro hext
          rcases hs.2 with h | h | h
          · exact absurd h hext
          · cases h
          · exact h
  · intro filename tempDir size hp hs hscan hext hconv
    rw [uploadFileHandler_of_persisted tbl cfg w req filename tempDir size hp,
      if_neg (not_lt.mpr hs)]
    have hst : scanStage cfg w req (scratchPath w req filename tempDir) =
        (Result.json 500 (Body.error "Failed to convert file to PDF"),
          [Effect.scanFileForViruses (scratchPath w req filename tempDir) true,
           Effect.convertToPDF (scratchPath w req filename tempDir) false,
           Effect.json 500 (Body.error "Failed to convert file to PDF")]) := by
      have hext2 : ¬ Ext (scratchPath w req filename tempDir) = ['.', 'p', 'd', 'f'] := hext
      simp [scanStage, hscan, convertStage, hext2, convertToPDF, hconv]
    rw [hst]
    refine ⟨rfl, ?_⟩
    intro e he
    simp only [List.cons_append, List.nil_append, List.mem_cons, List.mem_singleton,
      List.not_mem_nil, or_false] at he
    rcases he with rfl | rfl | rfl | rfl | rfl | rfl <;> rfl

/-- A clean `resume.docx` whose conversion fails is answered 500 and nothing
is uploaded, by C3. -/
theorem upload_only_after_clean_scan_and_conversion_witness :
    (uploadFileHandler idTable sampleConfig noConvertWorld (sampleRequest "resume.docx")).1 =
        Result.json 500 (Body.error "Failed to convert file to PDF") ∧
    ∀ e ∈ (uploadFileHandler idTable sampleConfig noConvertWorld
        (sampleRequest "resume.docx")).2, e.isUpload = false :=
  (upload_only_after_clean_scan_and_conversion idTable sampleConfig noConvertWorld
    (sampleRequest "resume.docx")).2 "resume.docx".toList "/tmp/upload123".toList 512000
    (by decide) (by decide) (by decide) (by decide) (by decide)

/-! ## The extension of the uploaded path -/

theorem Ext_append_pdf (x : Str) : Ext (x ++ ".pdf".toList) = ".pdf".toList := by
  have h : (x ++ ".pdf".toList).reverse = 'f' :: 'd' :: 'p' :: '.' :: x.reverse := by
    simp
  unfold Ext
  rw [h]
  simp [extScan, isPathSeparator]

theorem Ext_outputPath (p : Str) : Ext (outputPath p) = ".pdf".toList :=
  Ext_append_pdf _

/-- The extension is a suffix of the path. -/
theorem Ext_is_suffix (p : Str) : ∃ stem : Str, p = stem ++ Ext p := by
  induction p with
  | nil => exact ⟨[], rfl⟩
  | cons c t ih =>
    rw [Ext_cons]
    split_ifs with h1 h2
    · obtain ⟨stem, hstem⟩ := ih
      exact ⟨c :: stem, by rw [List.cons_append, ← hstem]⟩
    · exact ⟨[], rfl⟩
    · exact ⟨c :: t, by simp⟩

theorem HasSuffix_append (a b : Str) : HasSuffix (a ++ b) b = true := by
  unfold HasSuffix
  rw [List.reverse_append, List.isPrefixOf_iff_prefix]
  exact List.prefix_append _ _

theorem TrimSuffix_append (a b : Str) : TrimSuffix (a ++ b) b = a := by
  unfold TrimSuffix
  rw [HasSuffix_append, if_pos rfl]
  simp

/-- The output path of the conversion is the input path with its extension
replaced by `.pdf`. -/
theorem outputPath_replaces_extension (p : Str) :
    ∃ stem : Str, p = stem ++ Ext p ∧ outputPath p = stem ++ ".pdf".toList := by
  obtain ⟨stem, hstem⟩ := Ext_is_suffix p
  refine ⟨stem, hstem, ?_⟩
  unfold outputPath
  have h : TrimSuffix p (Ext p) = stem := by
    conv_lhs => rw [hstem]
    have h2 : Ext (stem ++ Ext p) = Ext p := by rw [← hstem]
    rw [h2]
    exact TrimSuffix_append _ _
  rw [h]

theorem HasSuffix_of_Ext_pdf (p : Str) (h : Ext p = ".pdf".toList) :
    HasSuffix p ".pdf".toList = true := by
  obtain ⟨stem, hstem⟩ := Ext_is_suffix p
  rw [h] at hstem
  rw [hstem]
  exact HasSuffix_append _ _

/-- The base name of a path with the extension `.pdf` ends in `.pdf`. -/
theorem Base_HasSuffix_of_Ext_pdf (p : Str) (h : Ext p = ".pdf".toList) :
    HasSuffix (Base p) ".pdf".toList = true := by
  obtain ⟨stem, hstem⟩ := Ext_is_suffix p
  rw [h] at hstem
  have hb : Base p =
      (stem.reverse.takeWhile (fun c => !isPathSeparator c)).reverse ++ ".pdf".toList := by
    rw [hstem]
    unfold Base
    have hne : stem ++ ".pdf".toList ≠ [] := by simp
    rw [if_neg hne]
    have hrev : (stem ++ ".pdf".toList).reverse = 'f' :: 'd' :: 'p' :: '.' :: stem.reverse := by
      simp
    simp only [hrev]
    have hdrop : List.dropWhile isPathSeparator ('f' :: 'd' :: 'p' :: '.' :: stem.reverse) =
        'f' :: 'd' :: 'p' :: '.' :: stem.reverse := by
      simp [List.dropWhile, isPathSeparator]
    rw [hdrop, List.reverse_reverse]
    have htake : List.takeWhile (fun c => !isPathSeparator c)
        ('f' :: 'd' :: 'p' :: '.' :: stem.reverse) =
        'f' :: 'd' :: 'p' :: '.' :: List.takeWhile (fun c => !isPathSeparator c) stem.reverse := by
      simp [List.takeWhile, isPathSeparator]
    rw [htake]
    simp
  rw [hb]
  exact HasSuffix_append _ _

theorem uploadStage_uploads (cfg : Config) (w : World) (req : Request) (p q : Str)
    (h : Effect.uploadToS3 q ∈ (uploadStage cfg w req p).2) : q = p := by
  by_cases ho : w.osOpen p = true
  · by_cases hp : w.putObject cfg.DoSpacesBucketName (Base p) = true
    · simpa [uploadStage, uploadToS3, ho, hp] using h
    · simpa [uploadStage, uploadToS3, ho, hp] using h
  · simpa [uploadStage, uploadToS3, ho] using h

theorem convertStage_uploads (cfg : Config) (w : World) (req : Request) (p q : Str)
    (h : Effect.uploadToS3 q ∈ (convertStage cfg w req p).2) : Ext q = ".pdf".toList := by
  unfold convertStage at h
  by_cases hext : Ext p = ".pdf".toList
  · rw [if_neg (not_not.mpr hext)] at h
    rw [uploadStage_uploads cfg w req p q h]
    exact hext
  · rw [if_pos hext] at h
    by_cases hl : w.libreoffice p (Dir p) = true
    · simp only [convertToPDF, hl, Bool.not_true, Bool.false_eq_true, if_false,
        List.mem_append, List.mem_cons, List.mem_singleton, List.not_mem_nil, or_false,
        reduceCtorEq, false_or] at h
      rw [uploadStage_uploads cfg w req _ q h]
      exact Ext_outputPath p
    · simp [convertToPDF, hl] at h

theorem scanStage_uploads (cfg : Config) (w : World) (req : Request) (p q : Str)
    (h : Effect.uploadToS3 q ∈ (scanStage cfg w req p).2) : Ext q = ".pdf".toList := by
  unfold scanStage at h
  by_cases hs : scanFileForViruses w p = true
  · simp only [hs, Bool.not_true, Bool.false_eq_true, if_false, List.mem_cons, reduceCtorEq,
      false_or] at h
    exact convertStage_uploads cfg w req p q h
  · simp [hs] at h

theorem processUpload_uploads (cfg : Config) (w : World) (req : Request)
    (filename tempDir q : Str)
    (h : Effect.uploadToS3 q ∈ (processUpload cfg w req filename tempDir).2) :
    Ext q = ".pdf".toList := by
  unfold processUpload at h
  simp only at h
  split_ifs at h with h1 h2
  · simp at h
  · simp at h
  · cases hst : w.statSize with
    | none => simp [hst] at h
    | some size =>
      simp only [hst] at h
      split_ifs at h with h3
      · simp at h
      · simp only [List.mem_cons, reduceCtorEq, false_or] at h
        exact scanStage_uploads cfg w req _ q h

theorem uploadFileHandler_uploads (tbl : Char → Char) (cfg : Config) (w : World)
    (req : Request) (q : Str)
    (h : Effect.uploadToS3 q ∈ (uploadFileHandler tbl cfg w req).2) :
    Ext q = ".pdf".toList := by
  cases hf : req.cvFile with
  | none =>
    obtain ⟨st, body, he⟩ := uploadFileHandler_trace_of_no_dir tbl cfg w req (Or.inl hf) _ h
    cases he
  | some filename =>
    cases hd : w.mkdirTemp with
    | none =>
      obtain ⟨st, body, he⟩ := uploadFileHandler_trace_of_no_dir tbl cfg w req (Or.inr hd) _ h
      cases he
    | some tempDir =>
      unfold uploadFileHandler respond at h
      simp only [hf, hd] at h
      split_ifs at h
      all_goals
        simp only [List.mem_cons, List.mem_append, List.mem_singleton, List.not_mem_nil,
          reduceCtorEq, false_or, or_false] at h
      exact processUpload_uploads cfg w req filename tempDir q h

theorem uploadStage_ok (cfg : Config) (w : World) (req : Request) (p url path tok : Str)
    (h : (uploadStage cfg w req p).1 = Result.json 200 (Body.uploaded url path tok)) :
    path = p ∧
    url = cfg.DoSpacesEndpoint ++ "/".toList ++ cfg.DoSpacesBucketName ++ "/".toList ++
      Base p := by
  by_cases ho : w.osOpen p = true
  · by_cases hp : w.putObject cfg.DoSpacesBucketName (Base p) = true
    · simp only [uploadStage, uploadToS3, ho, hp, Bool.not_true, Bool.false_eq_true, if_false,
        Result.json.injEq, Body.uploaded.injEq, true_and] at h
      refine ⟨h.2.1.symm, ?_⟩
      rw [← h.1]
      simp [Sprintf]
    · simp [uploadStage, uploadToS3, ho, hp] at h
  · simp [uploadStage, uploadToS3, ho] at h

theorem convertStage_ok (cfg : Config) (w : World) (req : Request) (p url path tok : Str)
    (h : (convertStage cfg w req p).1 = Result.json 200 (Body.uploaded url path tok)) :
    Ext path = ".pdf".toList ∧
    url = cfg.DoSpacesEndpoint ++ "/".toList ++ cfg.DoSpacesBucketName ++ "/".toList ++
      Base path := by
  unfold convertStage at h
  by_cases hext : Ext p = ".pdf".toList
  · rw [if_neg (not_not.mpr hext)] at h
    obtain ⟨h1, h2⟩ := uploadStage_ok cfg w req p url path tok h
    rw [h1]
    exact ⟨hext, h2⟩
  · rw [if_pos hext] at h
    by_cases hl : w.libreoffice p (Dir p) = true
    · simp only [convertToPDF, hl, Bool.not_true, Bool.false_eq_true, if_false] at h
      obtain ⟨h1, h2⟩ := uploadStage_ok cfg w req _ url path tok h
      rw [h1]
      exact ⟨Ext_outputPath p, h2⟩
    · simp [convertToPDF, hl] at h

theorem scanStage_ok (cfg : Config) (w : World) (req : Request) (p url path tok : Str)
    (h : (scanStage cfg w req p).1 = Result.json 200 (Body.uploaded url path tok)) :
    Ext path = ".pdf".toList ∧
    url = cfg.DoSpacesEndpoint ++ "/".toList ++ cfg.DoSpacesBucketName ++ "/".toList ++
      Base path := by
  unfold scanStage at h
  by_cases hs : scanFileForViruses w p = true
  · simp only [hs, Bool.not_true, Bool.false_eq_true, if_false] at h
    exact convertStage_ok cfg w req p url path tok h
  · simp [hs] at h

theorem processUpload_ok (cfg : Config) (w : World) (req : Request)
    (filename tempDir url path tok : Str)
    (h : (processUpload cfg w req filename tempDir).1 =
      Result.json 200 (Body.uploaded url path tok)) :
    Ext path = ".pdf".toList ∧
    url = cfg.DoSpacesEndpoint ++ "/".toList ++ cfg.DoSpacesBucketName ++ "/".toList ++
      Base path := by
  by_cases h1 : w.osCreate (scratchPath w req filename tempDir) = true
  · by_cases h2 : w.ioCopy = true
    · cases hst : w.statSize with
      | none => simp [processUpload, h1, h2, hst] at h
      | some size =>
        by_cases h3 : MaxFileSize < size
        · simp [processUpload, h1, h2, hst, h3] at h
        · exact scanStage_ok cfg w req _ url path tok
            (by simpa [processUpload, h1, h2, hst, h3] using h)
    · simp [processUpload, h1, h2] at h
  · simp [processUpload, h1] at h

theorem uploadFileHandler_ok (tbl : Char → Char) (cfg : Config) (w : World) (req : Request)
    (url path tok : Str)
    (h : (uploadFileHandler tbl cfg w req).1 = Result.json 200 (Body.uploaded url path tok)) :
    Ext path = ".pdf".toList ∧
    url = cfg.DoSpacesEndpoint ++ "/".toList ++ cfg.DoSpacesBucketName ++ "/".toList ++
      Base path := by
  by_cases h1 : req.userUUID = [] ∨ req.firstName = [] ∨ req.lastName = []
  · simp [uploadFileHandler, respond, h1] at h
  · cases hf : req.cvFile with
    | none => simp [uploadFileHandler, respond, h1, hf] at h
    | some filename =>
      by_cases h2 : filename = []
      · simp [uploadFileHandler, respond, h1, hf, h2] at h
      · by_cases h3 : allowedFile tbl filename = true
        · by_cases h4 : w.fileOpen = true
          · cases hd : w.mkdirTemp with
            | none => simp [uploadFileHandler, respond, h1, hf, h2, h3, h4, hd] at h
            | some tempDir =>
              exact processUpload_ok cfg w req filename tempDir url path tok
                (by simpa [uploadFileHandler, respond, h1, hf, h2, h3, h4, hd] using h)
          · simp [uploadFileHandler, respond, h1, hf, h2, h3, h4] at h
        · simp [uploadFileHandler, respond, h1, hf, h2, h3] at h

/-- C9: whenever the handler invokes the uploader, the path it passes has the
extension exactly `.pdf`; the result of `convertToPDF` is the input path with
its extension replaced by `.pdf`; hence in every 200 response `file_path`
ends in `.pdf`, and `file_url` is `endpoint/bucket/key` with a key, the base
name of `file_path`, that ends in `.pdf`. -/
theorem uploaded_path_has_pdf_extension (tbl : Char → Char) (cfg : Config) (w : World)
    (req : Request) :
    (∀ p : Str, Effect.uploadToS3 p ∈ (uploadFileHandler tbl cfg w req).2 →
      Ext p = ".pdf".toList) ∧
    (∀ p : Str, Ext (outputPath p) = ".pdf".toList ∧
      ∃ stem : Str, p = stem ++ Ext p ∧ outputPath p = stem ++ ".pdf".toList) ∧
    (∀ url path tok : Str,
      (uploadFileHandler tbl cfg w req).1 = Result.json 200 (Body.uploaded url path tok) →
      Ext path = ".pdf".toList ∧ HasSuffix path ".pdf".toList = true ∧
      url = cfg.DoSpacesEndpoint ++ "/".toList ++ cfg.DoSpacesBucketName ++ "/".toList ++
        Base path ∧
      HasSuffix (Base path) ".pdf".toList = true ∧ HasSuffix url ".pdf".toList = true) := by
  refine ⟨fun p h => uploadFileHandler_uploads tbl cfg w req p h,
    fun p => ⟨Ext_outputPath p, outputPath_replaces_extension p⟩, ?_⟩
  intro url path tok h
  obtain ⟨hext, hurl⟩ := uploadFileHandler_ok tbl cfg w req url path tok h
  refine ⟨hext, HasSuffix_of_Ext_pdf path hext, hurl, Base_HasSuffix_of_Ext_pdf path hext, ?_⟩
  have hb := Base_HasSuffix_of_Ext_pdf path hext
  rw [hurl]
  unfold HasSuffix at hb ⊢
  rw [List.isPrefixOf_iff_prefix] at hb ⊢
  rw [List.reverse_append]
  exact hb.trans (List.prefix_append _ _)

/-- The upload of a clean `resume.docx` passes a path with the extension
`.pdf` to the uploader, by C9. -/
theorem uploaded_path_has_pdf_extension_witness :
    Ext "/tmp/upload123/Ada-Lovelace-2024-05-06-07-08-09.pdf".toList = ".pdf".toList :=
  (uploaded_path_has_pdf_extension idTable sampleConfig okWorld
    (sampleRequest "resume.docx")).1 _ (by decide)

/-! ## The errors the handler passes up -/

theorem uploadFileHandler_of_not_validated (tbl : Char → Char) (cfg : Config) (w : World)
    (req : Request) (h : ¬ ∃ filename, Validated tbl req filename) :
    ∃ msg, (uploadFileHandler tbl cfg w req).1 = Result.json 400 (Body.error msg) := by
  by_cases h1 : req.userUUID = [] ∨ req.firstName = [] ∨ req.lastName = []
  · exact ⟨"User UUID, First Name, and Last Name are required",
      by simp [uploadFileHandler, respond, h1]⟩
  · cases hf : req.cvFile with
    | none => exact ⟨"No file part", by simp [uploadFileHandler, respond, h1, hf]⟩
    | some filename =>
      by_cases h2 : filename = []
      · exact ⟨"No selected file", by simp [uploadFileHandler, respond, h1, hf, h2]⟩
      · by_cases h3 : allowedFile tbl filename = true
        · exfalso
          apply h
          refine ⟨filename, ?_⟩
          simp only [not_or] at h1
          exact ⟨h1.1, h1.2.1, h1.2.2, hf, h2, h3⟩
        · exact ⟨"File type not allowed",
            by simp [uploadFileHandler, respond, h1, hf, h2, h3]⟩

theorem uploadFileHandler_of_io_failure (tbl : Char → Char) (cfg : Config) (w : World)
    (req : Request) (filename : Str) (hv : Validated tbl req filename)
    (hio : IOFailure w req filename) :
    ∃ call, (uploadFileHandler tbl cfg w req).1 = Result.err call := by
  obtain ⟨h1, h2, h3, h4, h5, h6⟩ := hv
  by_cases ho : w.fileOpen = true
  · cases hd : w.mkdirTemp with
    | none =>
      exact ⟨"os.MkdirTemp", by simp [uploadFileHandler, h1, h2, h3, h4, h5, h6, ho, hd]⟩
    | some tempDir =>
      have hr : (uploadFileHandler tbl cfg w req).1 =
          (processUpload cfg w req filename tempDir).1 := by
        simp [uploadFileHandler, h1, h2, h3, h4, h5, h6, ho, hd]
      rw [hr]
      rcases hio with hio | hio | ⟨d, hd2, hio⟩
      · rw [ho] at hio; cases hio
      · rw [hd] at hio; cases hio
      · rw [hd] at hd2
        cases hd2
        by_cases hc : w.osCreate (scratchPath w req filename tempDir) = true
        · by_cases hcp : w.ioCopy = true
          · cases hst : w.statSize with
            | none => exact ⟨"dst.Stat", by simp [processUpload, hc, hcp, hst]⟩
            | some size =>
              rcases hio with hio | hio | hio
              · rw [hc] at hio; cases hio
              · rw [hcp] at hio; cases hio
              · rw [hst] at hio; cases hio
          · exact ⟨"io.Copy", by simp [processUpload, hc, hcp]⟩
        · exact ⟨"os.Create", by simp [processUpload, hc]⟩
  · exact ⟨"file.Open", by simp [uploadFileHandler, h1, h2, h3, h4, h5, h6, ho]⟩

theorem persisted_of_no_io_failure (tbl : Char → Char) (w : World) (req : Request)
    (filename : Str) (hv : Validated tbl req filename) (hio : ¬ IOFailure w req filename) :
    ∃ tempDir size, Persisted tbl w req filename tempDir size := by
  unfold IOFailure at hio
  simp only [not_or, not_exists, not_and] at hio
  obtain ⟨ho, hd, hrest⟩ := hio
  cases hd2 : w.mkdirTemp with
  | none => exact absurd hd2 hd
  | some tempDir =>
    obtain ⟨hc, hcp, hst⟩ := hrest tempDir hd2
    cases hst2 : w.statSize with
    | none => exact absurd hst2 hst
    | some size =>
      refine ⟨tempDir, size, hv, ?_, hd2, ?_, ?_, hst2⟩
      · simpa using ho
      · simpa using hc
      · simpa using hcp

theorem uploadFileHandler_json_of_persisted (tbl : Char → Char) (cfg : Config) (w : World)
    (req : Request) (filename tempDir : Str) (size : Int)
    (hp : Persisted tbl w req filename tempDir size) :
    (∃ status msg, (status = 400 ∨ status = 500) ∧
      (uploadFileHandler tbl cfg w req).1 = Result.json status (Body.error msg)) ∨
    (∃ url path tok,
      (uploadFileHandler tbl cfg w req).1 = Result.json 200 (Body.uploaded url path tok)) := by
  rw [uploadFileHandler_of_persisted tbl cfg w req filename tempDir size hp]
  split_ifs with h
  · exact Or.inl ⟨400, _, Or.inl rfl, rfl⟩
  · rcases scanStage_fst_cases cfg w req (scratchPath w req filename tempDir) with
      h1 | h1 | h1 | ⟨url, q, tok, h1⟩
    · exact Or.inl ⟨400, _, Or.inl rfl, h1⟩
    · exact Or.inl ⟨500, _, Or.inr rfl, h1⟩
    · exact Or.inl ⟨500, _, Or.inr rfl, h1⟩
    · exact Or.inr ⟨url, q, tok, h1⟩

/-- C7, the claim as stated, fails: when the uploaded part cannot be opened
the handler returns the error itself and no JSON response. -/
theorem raw_error_when_part_cannot_be_opened :
    ¬ ∃ status body,
      (uploadFileHandler idTable sampleConfig noOpenWorld (sampleRequest "resume.pdf")).1 =
        Result.json status body := by
  have h : (uploadFileHandler idTable sampleConfig noOpenWorld (sampleRequest "resume.pdf")).1 =
      Result.err "file.Open" := by decide
  rw [h]
  rintro ⟨status, body, hb⟩
  cases hb

/-- C7, amended: the handler answers with a structured JSON response, a 400
or 500 with an `error` body or the 200 success body, or else returns a raw
error; and it returns a raw error exactly when the request passed the
required-field and extension checks and one of the five calls failed:
opening the uploaded part, creating the scratch directory, creating the
scratch file, copying the bytes, or `Stat`. -/
theorem json_response_unless_io_failure (tbl : Char → Char) (cfg : Config) (w : World)
    (req : Request) :
    ((∃ status msg, (status = 400 ∨ status = 500) ∧
        (uploadFileHandler tbl cfg w req).1 = Result.json status (Body.error msg)) ∨
      (∃ url path tok,
        (uploadFileHandler tbl cfg w req).1 = Result.json 200 (Body.uploaded url path tok)) ∨
      (∃ call, (uploadFileHandler tbl cfg w req).1 = Result.err call)) ∧
    ((∃ call, (uploadFileHandler tbl cfg w req).1 = Result.err call) ↔
      ∃ filename, Validated tbl req filename ∧ IOFailure w req filename) := by
  by_cases hv : ∃ filename, Validated tbl req filename
  · obtain ⟨filename, hv⟩ := hv
    by_cases hio : IOFailure w req filename
    · have herr := uploadFileHandler_of_io_failure tbl cfg w req filename hv hio
      exact ⟨Or.inr (Or.inr herr), fun _ => ⟨filename, hv, hio⟩, fun _ => herr⟩
    · obtain ⟨tempDir, size, hp⟩ := persisted_of_no_io_failure tbl w req filename hv hio
      have hj := uploadFileHandler_json_of_persisted tbl cfg w req filename tempDir size hp
      refine ⟨hj.imp id Or.inl, ?_, ?_⟩
      · rintro ⟨call, hc⟩
        rcases hj with ⟨st, msg, _, h⟩ | ⟨url, path, tok, h⟩ <;>
          rw [h] at hc <;> cases hc
      · rintro ⟨f, hvf, hiof⟩
        have hff : f = filename := by
          have h1 := hvf.2.2.2.1
          have h2 := hv.2.2.2.1
          rw [h1] at h2
          exact Option.some.inj h2
        rw [hff] at hiof
        exact absurd hiof hio
  · obtain ⟨msg, hm⟩ := uploadFileHandler_of_not_validated tbl cfg w req hv
    refine ⟨Or.inl ⟨400, msg, Or.inl rfl, hm⟩, ?_, ?_⟩
    · rintro ⟨call, hc⟩
      rw [hm] at hc
      cases hc
    · rintro ⟨f, hvf, _⟩
      exact absurd ⟨f, hvf⟩ hv

/-! ## The conversion of an accepted PDF, and the place of the scratch file -/

/-- A scratch file with the extension exactly `.pdf` that passes the scan is
not converted: the uploader is handed the scratch file. -/
theorem no_conversion_of_pdf_scratch (tbl : Char → Char) (cfg : Config) (w : World)
    (req : Request) (filename tempDir : Str) (size : Int)
    (hp : Persisted tbl w req filename tempDir size) (hs : size ≤ MaxFileSize)
    (hscan : scanFileForViruses w (scratchPath w req filename tempDir) = true)
    (hext : Ext (scratchPath w req filename tempDir) = ".pdf".toList) :
    (∀ e ∈ (uploadFileHandler tbl cfg w req).2, e.isConvert = false) ∧
    Effect.uploadToS3 (scratchPath w req filename tempDir) ∈
      (uploadFileHandler tbl cfg w req).2 := by
  rw [uploadFileHandler_of_persisted tbl cfg w req filename tempDir size hp,
    if_neg (not_lt.mpr hs)]
  have hext2 : Ext (scratchPath w req filename tempDir) = ['.', 'p', 'd', 'f'] := hext
  by_cases ho : w.osOpen (scratchPath w req filename tempDir) = true
  · by_cases hput : w.putObject cfg.DoSpacesBucketName
        (Base (scratchPath w req filename tempDir)) = true
    · simp [scanStage, hscan, convertStage, hext2, uploadStage, uploadToS3, ho, hput,
        Effect.isConvert]
    · simp [scanStage, hscan, convertStage, hext2, uploadStage, uploadToS3, ho, hput,
        Effect.isConvert]
  · simp [scanStage, hscan, convertStage, hext2, uploadStage, uploadToS3, ho,
      Effect.isConvert]

/-- The deferred `os.RemoveAll(tempDir)` is the last effect of every run that
created the scratch directory. -/
theorem removeAll_runs_last (tbl : Char → Char) (cfg : Config) (w : World) (req : Request)
    (filename tempDir : Str) (hv : Validated tbl req filename) (ho : w.fileOpen = true)
    (hd : w.mkdirTemp = some tempDir) :
    (uploadFileHandler tbl cfg w req).2 =
      Effect.mkdirTemp tempDir :: (processUpload cfg w req filename tempDir).2 ++
        [Effect.removeAll tempDir] := by
  obtain ⟨h1, h2, h3, h4, h5, h6⟩ := hv
  simp [uploadFileHandler, h1, h2, h3, h4, h5, h6, ho, hd]

/-- C6 fails on the code: `REPORT.PDF`, which the validator accepts as a PDF
and which passes the scan, is written to a scratch file with the extension
`.PDF`, `convertToPDF` is invoked on it, and the uploader is handed the
output of the conversion instead of the scratch file. -/
theorem uppercase_pdf_is_converted :
    Validated idTable (sampleRequest "REPORT.PDF") "REPORT.PDF".toList ∧
    ToLower idTable (Ext "REPORT.PDF".toList) = ".pdf".toList ∧
    scratchPath okWorld (sampleRequest "REPORT.PDF") "REPORT.PDF".toList
        "/tmp/upload123".toList =
      "/tmp/upload123/Ada-Lovelace-2024-05-06-07-08-09.PDF".toList ∧
    Effect.scanFileForViruses "/tmp/upload123/Ada-Lovelace-2024-05-06-07-08-09.PDF".toList true ∈
      (uploadFileHandler idTable sampleConfig okWorld (sampleRequest "REPORT.PDF")).2 ∧
    Effect.convertToPDF "/tmp/upload123/Ada-Lovelace-2024-05-06-07-08-09.PDF".toList true ∈
      (uploadFileHandler idTable sampleConfig okWorld (sampleRequest "REPORT.PDF")).2 ∧
    Effect.uploadToS3 "/tmp/upload123/Ada-Lovelace-2024-05-06-07-08-09.pdf".toList ∈
      (uploadFileHandler idTable sampleConfig okWorld (sampleRequest "REPORT.PDF")).2 ∧
    Effect.uploadToS3 "/tmp/upload123/Ada-Lovelace-2024-05-06-07-08-09.PDF".toList ∉
      (uploadFileHandler idTable sampleConfig okWorld (sampleRequest "REPORT.PDF")).2 := by
  refine ⟨by decide, by decide, by decide, by decide, by decide, by decide, by decide⟩

/-- C8 fails on the code: with the first name `../x` the scratch file is
created outside the scratch directory, and it still exists after the deferred
`os.RemoveAll(tempDir)`, the last effect of the run. -/
theorem scratch_file_escapes_tempDir :
    Validated idTable traversalRequest "cv.pdf".toList ∧
    scratchPath okWorld traversalRequest "cv.pdf".toList "/tmp/upload123".toList =
      "/tmp/x-Lovelace-2024-05-06-07-08-09.pdf".toList ∧
    isInside "/tmp/upload123".toList
      (scratchPath okWorld traversalRequest "cv.pdf".toList "/tmp/upload123".toList) = false ∧
    Effect.create "/tmp/x-Lovelace-2024-05-06-07-08-09.pdf".toList ∈
      (uploadFileHandler idTable sampleConfig okWorld traversalRequest).2 ∧
    (uploadFileHandler idTable sampleConfig okWorld traversalRequest).2.getLast? =
      some (Effect.removeAll "/tmp/upload123".toList) ∧
    "/tmp/x-Lovelace-2024-05-06-07-08-09.pdf".toList ∈
      fsAfter [] (uploadFileHandler idTable sampleConfig okWorld traversalRequest).2 := by
  refine ⟨by decide, by decide, by decide, by decide, by decide, by decide⟩

end Upload
